import Mathlib

/-!
Shallow embedding of the rust-store server core (storage engine, tokenizer,
parser, interpreter) and proofs about it.

Conventions used throughout:
* Rust `Result<T, ServerError>` becomes `Except Fail T`; a Rust panic
  (out-of-bounds index, `Option::unwrap` on `None`) is the distinguished
  outcome `Fail.panic`, so that "never panics" claims are statable.
* `SystemTime` instants are modelled as natural numbers (seconds); the
  current instant is passed explicitly as a `now` parameter to every
  operation that calls `SystemTime::now()`.  Time is constant within one
  operation.
* `HashMap` is modelled as an association list with unique keys; iteration
  order is never observed by the embedded code.
* `f32` payloads are modelled by the opaque type `F32`; equality of `F32`
  values models bit-identity of the underlying floats.  No embedded code
  path ever computes with float payloads.
-/

namespace RustStore

/-! ### Errors (src/server/src/error.rs) -/

/-- The `ServerError` enum from error.rs. -/
inductive ServerError where
  | keyError (msg : String)
  | networkError (msg : String)
  | writeError (msg : String)
  | tokenizationError (msg : String)
  | parseError (msg : String)
  | indexError (msg : String)
  | typeError (msg : String)
  | internalError (msg : String)
  | authorizationError (msg : String)
  | authenticationError (msg : String)
  | requestError (msg : String)
deriving DecidableEq, Repr

/-- The outcome of a fallible Rust computation: either a typed `ServerError`
is returned, or the program panics (index out of bounds / `unwrap` on
`None`).  Panics are modelled explicitly because several claims assert
their absence. -/
inductive Fail where
  | thrown (e : ServerError)
  | panic
deriving DecidableEq, Repr

/-- Result type of embedded Rust functions. -/
abbrev Res (α : Type) := Except Fail α

/-! ### Value model (src/server/src/storage/types.rs) -/

/-- `KeyType` from types.rs. -/
inductive KeyType where
  | string
  | int
deriving DecidableEq, Repr

/-- `CollectionType` from types.rs. -/
inductive CollectionType where
  | bool
  | string
  | int
  | float
deriving DecidableEq, Repr

/-- Opaque model of a Rust `f32` value: we keep the source text of the
literal that produced it.  Equality of `F32` values stands for bit-identity
of floats; no embedded operation inspects the payload. -/
abbrev F32 := List Char

/-- `StorageValue` from types.rs.  The Rust `Vector` variant holds a
`StorageVector { vector, collection_type }` struct and the `Map` variant a
`StorageMap { map, key_type, collection_type }` struct; here the struct
fields are inlined into the constructor arguments (`vector ct items`,
`map kt ct entries`), with the map's `HashMap` modelled as an association
list. -/
inductive StorageVal where
  | null
  | bool (b : Bool)
  | str (s : String)
  | int (i : Int)
  | float (x : F32)
  | vector (ct : CollectionType) (items : List StorageVal)
  | map (kt : KeyType) (ct : CollectionType) (entries : List (StorageVal × StorageVal))

/-- The `impl PartialEq for StorageValue` from types.rs: equality is defined
only for the `Bool`, `Int` and `String` variants; every other left-hand
variant (including `Float`) falls to the catch-all arm returning `false`. -/
def svEq : StorageVal → StorageVal → Bool
  | .bool v, other => match other with
      | .bool w => v == w
      | _ => false
  | .int v, other => match other with
      | .int w => v == w
      | _ => false
  | .str v, other => match other with
      | .str w => v == w
      | _ => false
  | _, _ => false

/-- `validate_value` from types.rs. -/
def validateValue (value : StorageVal) (collectionType : CollectionType) : Res Unit :=
  match collectionType with
  | .bool => match value with
      | .bool _ => .ok ()
      | _ => .error (.thrown (.typeError "Expected an integer key"))
  | .int => match value with
      | .int _ => .ok ()
      | _ => .error (.thrown (.typeError "Expected an integer key"))
  | .string => match value with
      | .str _ => .ok ()
      | _ => .error (.thrown (.typeError "Expected an integer key"))
  | .float => match value with
      | .float _ => .ok ()
      | _ => .error (.thrown (.typeError "Expected an integer key"))

/-- `validate_key` from types.rs. -/
def validateKey (key : StorageVal) (keyType : KeyType) : Res Unit :=
  match keyType with
  | .int => match key with
      | .int _ => .ok ()
      | _ => .error (.thrown (.typeError "Expected an integer key"))
  | .string => match key with
      | .str _ => .ok ()
      | _ => .error (.thrown (.typeError "Expected a string key."))

/-! ### Storage element and expiration (types.rs) -/

/-- `StorageElement` from types.rs, with `SystemTime` as `Nat`. -/
structure StorageElement where
  key : String
  expiration : Option Nat
  value : StorageVal

/-- `StorageElement::is_expired`: `SystemTime::now() > expiration`, i.e. an
element is expired iff its expiration instant is strictly before `now`. -/
def StorageElement.isExpired (e : StorageElement) (now : Nat) : Bool :=
  match e.expiration with
  | none => false
  | some expiration => now > expiration

/-- `make_key_error` from types.rs. -/
def makeKeyError (key : String) : ServerError :=
  .keyError ("No entry with key \x27" ++ key ++ "\x27 exists")

/-! ### StorageVector operations (types.rs).

The Rust methods mutate `self : StorageVector`; here each takes the
`collection_type` tag and the backing list and returns the new list where
the method mutates. -/

/-- `StorageVector::pop`. -/
def StorageVector.popOp (items : List StorageVal) : Option StorageVal × List StorageVal :=
  (items.getLast?, items.dropLast)

/-- `StorageVector::len`. -/
def StorageVector.lenOp (items : List StorageVal) : Nat := items.length

/-- `StorageVector::get`. -/
def StorageVector.getOp (items : List StorageVal) (index : Nat) : Res StorageVal :=
  match items.get? index with
  | some value => .ok value
  | none => .error (.thrown (.indexError
      ("Cannot get entry " ++ toString index ++ ", vector has only "
        ++ toString items.length ++ " elements.")))

/-- `StorageVector::push`: validates the value against the element type and
appends. -/
def StorageVector.pushOp (ct : CollectionType) (items : List StorageVal)
    (value : StorageVal) : Res (List StorageVal) :=
  match validateValue value ct with
  | .error err => .error err
  | .ok _ => .ok (items ++ [value])

/-- `StorageVector::set`: validates the value, then bounds-checks the index. -/
def StorageVector.setOp (ct : CollectionType) (items : List StorageVal)
    (index : Nat) (value : StorageVal) : Res (List StorageVal) :=
  match validateValue value ct with
  | .error err => .error err
  | .ok _ =>
    if index ≥ items.length then
      .error (.thrown (.indexError
        ("Cannot set value at index " ++ toString index ++ ". Vector has "
          ++ toString items.length ++ " elements.")))
    else
      .ok (items.set index value)

/-! ### StorageMap operations (types.rs).

The backing `HashMap<StorageValue, StorageValue>` uses the `PartialEq`
above for key lookup; it is modelled as an association list probed with
`svEq`. -/

/-- Lookup in the map's backing `HashMap`. -/
def smLookup (entries : List (StorageVal × StorageVal)) (key : StorageVal) :
    Option StorageVal :=
  (entries.find? (fun p => svEq p.1 key)).map (·.2)

/-- `HashMap::insert`: replace the value of an existing key, else append. -/
def smInsert (entries : List (StorageVal × StorageVal)) (key value : StorageVal) :
    List (StorageVal × StorageVal) :=
  if entries.any (fun p => svEq p.1 key) then
    entries.map (fun p => if svEq p.1 key then (p.1, value) else p)
  else
    entries ++ [(key, value)]

/-- `HashMap::remove_entry`: drop the entry with the given key, if any. -/
def smRemove (entries : List (StorageVal × StorageVal)) (key : StorageVal) :
    Option StorageVal × List (StorageVal × StorageVal) :=
  (smLookup entries key, entries.filter (fun p => !svEq p.1 key))

/-- `StorageMap::get`. -/
def StorageMap.getOp (kt : KeyType) (entries : List (StorageVal × StorageVal))
    (key : StorageVal) : Res StorageVal :=
  match validateKey key kt with
  | .error err => .error err
  | .ok _ =>
    match smLookup entries key with
    | some value => .ok value
    | none => .error (.thrown (.indexError "No entry found for the given key."))

/-- `StorageMap::contains_key`. -/
def StorageMap.containsKeyOp (kt : KeyType) (entries : List (StorageVal × StorageVal))
    (key : StorageVal) : Res Bool :=
  match validateKey key kt with
  | .error err => .error err
  | .ok _ => .ok (entries.any (fun p => svEq p.1 key))

/-- `StorageMap::set`. -/
def StorageMap.setOp (kt : KeyType) (ct : CollectionType)
    (entries : List (StorageVal × StorageVal)) (key value : StorageVal) :
    Res (List (StorageVal × StorageVal)) :=
  match validateKey key kt with
  | .error err => .error err
  | .ok _ =>
    match validateValue value ct with
    | .error err => .error err
    | .ok _ => .ok (smInsert entries key value)

/-- `StorageMap::delete`. -/
def StorageMap.deleteOp (kt : KeyType) (entries : List (StorageVal × StorageVal))
    (key : StorageVal) : Res (Bool × List (StorageVal × StorageVal)) :=
  match validateKey key kt with
  | .error err => .error err
  | .ok _ =>
    match smRemove entries key with
    | (some _, rest) => .ok (true, rest)
    | (none, rest) => .ok (false, rest)

/-- `StorageMap::len`. -/
def StorageMap.lenOp (entries : List (StorageVal × StorageVal)) : Nat :=
  entries.length

/-! ### HashMapStorage (src/server/src/storage/hashmap_storage.rs) -/

/-- `HashMapContainer` from hashmap_storage.rs. -/
structure Container where
  element : StorageElement
  keyIndex : Option Nat

/-- `HashMapStorage`: the key/entry `HashMap` (association list with unique
keys) and the parallel `expiring_keys` vector. -/
structure HashMapStorage where
  storage : List (String × Container)
  expiringKeys : List String

/-- `HashMapStorage::new`. -/
def HashMapStorage.new : HashMapStorage := ⟨[], []⟩

/-- Lookup in the storage `HashMap`. -/
def hmGet (storage : List (String × Container)) (key : String) : Option Container :=
  (storage.find? (fun p => p.1 == key)).map (·.2)

/-- `HashMap::insert` on the storage map. -/
def hmInsert (storage : List (String × Container)) (key : String) (c : Container) :
    List (String × Container) :=
  if storage.any (fun p => p.1 == key) then
    storage.map (fun p => if p.1 == key then (p.1, c) else p)
  else
    storage ++ [(key, c)]

/-- `HashMap::remove` on the storage map: the removed container (if any) and
the remaining map. -/
def hmRemove (storage : List (String × Container)) (key : String) :
    Option Container × List (String × Container) :=
  (hmGet storage key, storage.filter (fun p => !(p.1 == key)))

/-- `Vec::swap_remove index`: overwrite slot `index` with the last element
and pop the last slot.  The caller guarantees `index` is in bounds. -/
def swapRemove (l : List String) (index : Nat) : List String :=
  match l.getLast? with
  | none => l
  | some last => (l.set index last).dropLast

/-- `HashMapStorage::invalidate_key_index`.  In the source,
`self.expiring_keys.len() - 1` on an empty vector under- or overflows and
the subsequent vector index panics (debug: subtraction overflow; release:
index `usize::MAX` out of bounds), so the empty case is modelled as a
panic; the `.unwrap()` on the moved container's lookup is a panic when the
last expiring key has no storage entry; `swap_remove` panics when `index`
is out of bounds. -/
def invalidateKeyIndex (σ : HashMapStorage) (index : Nat) : Res HashMapStorage :=
  match σ.expiringKeys.getLast? with
  | none => .error .panic
  | some lastKey =>
    let removingLast := index == σ.expiringKeys.length - 1
    if removingLast then
      if index < σ.expiringKeys.length then
        .ok { σ with expiringKeys := swapRemove σ.expiringKeys index }
      else .error .panic
    else
      match hmGet σ.storage lastKey with
      | none => .error .panic
      | some moved =>
        let storage₁ := hmInsert σ.storage lastKey { moved with keyIndex := some index }
        if index < σ.expiringKeys.length then
          .ok { storage := storage₁, expiringKeys := swapRemove σ.expiringKeys index }
        else .error .panic

/-- `HashMapStorage::get_random_key`, with the drawn `next_u64` value `r`
passed in explicitly: the sampled index is `r % expiring_keys.len()`. -/
def getRandomKey (σ : HashMapStorage) (r : Nat) : Option String :=
  if σ.expiringKeys.length == 0 then none
  else σ.expiringKeys.get? (r % σ.expiringKeys.length)

/-- `Storage::get_if_exists` for `HashMapStorage`. -/
def getIfExists (σ : HashMapStorage) (now : Nat) (key : String) :
    Res (Option StorageElement) :=
  match hmGet σ.storage key with
  | some c => if c.element.isExpired now then .ok none else .ok (some c.element)
  | none => .ok none

/-- `Storage::get` for `HashMapStorage`. -/
def getElem (σ : HashMapStorage) (now : Nat) (key : String) : Res StorageElement :=
  match getIfExists σ now key with
  | .ok (some element) => .ok element
  | .ok none => .error (.thrown (makeKeyError key))
  | .error err => .error err

/-- `Storage::update_expiration` for `HashMapStorage`. -/
def updateExpiration (σ : HashMapStorage) (now : Nat) (key : String)
    (expiration : Option Nat) : Res HashMapStorage :=
  match hmGet σ.storage key with
  | none => .error (.thrown (makeKeyError key))
  | some container =>
    if container.element.isExpired now then
      .error (.thrown (makeKeyError key))
    else
      let step : Res (Option Nat × HashMapStorage) :=
        match container.element.expiration with
        | some _ =>
          match expiration with
          | none =>
            match container.keyIndex with
            | none => .error .panic
            | some index =>
              match invalidateKeyIndex σ index with
              | .ok σ₁ => .ok (none, σ₁)
              | .error err => .error err
          | some _ => .ok (container.keyIndex, σ)
        | none =>
          match expiration with
          | some _ =>
            .ok (some σ.expiringKeys.length,
                 { σ with expiringKeys := σ.expiringKeys ++ [key] })
          | none => .ok (none, σ)
      match step with
      | .error err => .error err
      | .ok (newKeyIndex, σ₁) =>
        match hmGet σ₁.storage key with
        | none => .error .panic
        | some c =>
          let c' : Container :=
            { element := { c.element with expiration := expiration },
              keyIndex := newKeyIndex }
          .ok { σ₁ with storage := hmInsert σ₁.storage key c' }

/-- `Storage::check_and_expire` for `HashMapStorage`: removes the entry from
the `HashMap` when it is expired.  Note that the `expiring_keys` vector is
not touched. -/
def checkAndExpire (σ : HashMapStorage) (now : Nat) (key : String) :
    Res (Bool × HashMapStorage) :=
  match hmGet σ.storage key with
  | none => .error (.thrown (.keyError ("Key " ++ key ++ " not found.")))
  | some container =>
    if container.element.isExpired now then
      .ok (true, { σ with storage := (hmRemove σ.storage key).2 })
    else
      .ok (false, σ)

/-- `Storage::invalidate_expired_keys` for `HashMapStorage`, with the random
draw `r` passed in explicitly. -/
def invalidateExpiredKeys (σ : HashMapStorage) (now : Nat) (r : Nat) :
    Res (Nat × HashMapStorage) :=
  match getRandomKey σ r with
  | none => .ok (0, σ)
  | some key =>
    match checkAndExpire σ now key with
    | .ok (true, σ₁) => .ok (1, σ₁)
    | .ok (false, σ₁) => .ok (0, σ₁)
    | .error err => .error err

/-- `Storage::delete` for `HashMapStorage`. -/
def deleteOp (σ : HashMapStorage) (now : Nat) (key : String) :
    Res (Bool × HashMapStorage) :=
  match hmRemove σ.storage key with
  | (none, _) => .ok (false, σ)
  | (some container, storage₁) =>
    let σ₁ : HashMapStorage := { σ with storage := storage₁ }
    match container.element.expiration with
    | some _ =>
      match container.keyIndex with
      | none => .error .panic
      | some index =>
        match invalidateKeyIndex σ₁ index with
        | .error err => .error err
        | .ok σ₂ =>
          if container.element.isExpired now then .ok (false, σ₂) else .ok (true, σ₂)
    | none =>
      if container.element.isExpired now then .ok (false, σ₁) else .ok (true, σ₁)

/-- `Storage::contains_key` for `HashMapStorage` (the source always returns
`Ok`, so the boolean is returned directly). -/
def containsKey (σ : HashMapStorage) (now : Nat) (key : String) : Bool :=
  match hmGet σ.storage key with
  | some container => !container.element.isExpired now
  | none => false

/-- `Storage::set` for `HashMapStorage`. -/
def setOp (σ : HashMapStorage) (key : String) (value : StorageElement) :
    Res HashMapStorage :=
  let step : Res (Option Nat × HashMapStorage) :=
    match hmGet σ.storage key with
    | none =>
      match value.expiration with
      | none => .ok (none, σ)
      | some _ =>
        .ok (some σ.expiringKeys.length,
             { σ with expiringKeys := σ.expiringKeys ++ [key] })
    | some container =>
      match container.keyIndex with
      | none =>
        match value.expiration with
        | none => .ok (none, σ)
        | some _ =>
          .ok (some σ.expiringKeys.length,
               { σ with expiringKeys := σ.expiringKeys ++ [key] })
      | some keyIndex =>
        match value.expiration with
        | none =>
          match invalidateKeyIndex σ keyIndex with
          | .ok σ₁ => .ok (none, σ₁)
          | .error err => .error err
        | some _ => .ok (some keyIndex, σ)
  match step with
  | .error err => .error err
  | .ok (index, σ₁) =>
    let c : Container := { element := value, keyIndex := index }
    .ok { σ₁ with storage := hmInsert σ₁.storage key c }

/-- `Storage::set_if_not_exists` for `HashMapStorage`. -/
def setIfNotExists (σ : HashMapStorage) (key : String) (value : StorageElement) :
    Res (Bool × HashMapStorage) :=
  if σ.storage.any (fun p => p.1 == key) then
    .ok (false, σ)
  else
    match setOp σ key value with
    | .ok σ₁ => .ok (true, σ₁)
    | .error err => .error err

/-- `Storage::update` for `HashMapStorage`. -/
def updateOp (σ : HashMapStorage) (now : Nat) (key : String)
    (value : StorageElement) : Res HashMapStorage :=
  match containsKey σ now key with
  | false => .error (.thrown (makeKeyError key))
  | true => setOp σ key value

/-- `Storage::len` for `HashMapStorage`. -/
def lenOp (σ : HashMapStorage) : Nat := σ.storage.length

/-- `Storage::expiring_keys_count` for `HashMapStorage`. -/
def expiringKeysCount (σ : HashMapStorage) : Nat := σ.expiringKeys.length

/-! ### Sequences of storage operations.

Each mutating operation of the `Storage` trait, tagged with the instant at
which it is invoked (and, for the expiration sweep, the random draw). -/

/-- One mutating storage operation. -/
inductive StorageOp where
  | set (k : String) (v : StorageElement)
  | setIfNotExists (k : String) (v : StorageElement)
  | update (now : Nat) (k : String) (v : StorageElement)
  | updateExpiration (now : Nat) (k : String) (e : Option Nat)
  | delete (now : Nat) (k : String)
  | invalidateExpiredKeys (now : Nat) (r : Nat)

/-- Apply one storage operation, discarding its return value. -/
def applyOp (σ : HashMapStorage) : StorageOp → Res HashMapStorage
  | .set k v => setOp σ k v
  | .setIfNotExists k v =>
      match setIfNotExists σ k v with
      | .ok (_, σ₁) => .ok σ₁
      | .error err => .error err
  | .update now k v => updateOp σ now k v
  | .updateExpiration now k e => RustStore.updateExpiration σ now k e
  | .delete now k =>
      match deleteOp σ now k with
      | .ok (_, σ₁) => .ok σ₁
      | .error err => .error err
  | .invalidateExpiredKeys now r =>
      match invalidateExpiredKeys σ now r with
      | .ok (_, σ₁) => .ok σ₁
      | .error err => .error err

/-- Apply a sequence of storage operations in order, stopping at the first
error or panic. -/
def applyOps : List StorageOp → HashMapStorage → Res HashMapStorage
  | [], σ => .ok σ
  | op :: rest, σ =>
    match applyOp σ op with
    | .ok σ₁ => applyOps rest σ₁
    | .error err => .error err

/-- The number of resident (physically stored) entries whose expiration is
present. -/
def residentExpiringCount (σ : HashMapStorage) : Nat :=
  σ.storage.countP (fun p => p.2.element.expiration.isSome)

/-! ### Tokens (src/server/src/analysis/tokens.rs) -/

/-- The `Token` enum from tokens.rs.  The copy of tokens.rs under src/
lacks a `Shutdown` variant, yet parser.rs dispatches on
`Token::Shutdown`; the variant `shutdown` below is that missing piece,
modelled from the spec keyword table (`shutdown` → `Shutdown`). -/
inductive Token where
  | get
  | set
  | delete
  | exists
  | update
  | lifetime
  | getOrNone
  | setIfNotExists
  | none
  | shutdown
  | leftBracket
  | rightBracket
  | leftCurlyBracket
  | rightCurlyBracket
  | comma
  | colon
  | semicolon
  | setLifetime
  | mapSet
  | vectorSet
  | mapGet
  | vectorGet
  | vectorAppend
  | mapDelete
  | vectorPop
  | vectorLength
  | mapLength
  | mapExists
  | valueType
  | intType
  | floatType
  | stringType
  | vectorType
  | mapType
  | boolType
  | bool (b : Bool)
  | integer (i : Int)
  | float (x : F32)
  | stringValue (s : String)
  | identifier (s : String)
deriving DecidableEq, Repr

/-- `get_word_to_token_map` from tokens.rs, as a lookup function.  The
`"shutdown"` entry is modelled from the spec keyword table (`shutdown` →
`Shutdown`); it is missing from the stale copy of tokens.rs under src/,
which also lacks the `Shutdown` token that parser.rs dispatches on. -/
def wordToToken (s : String) : Option Token :=
  match s with
  | "get" => some .get
  | "shutdown" => some .shutdown
  | "set" => some .set
  | "del" => some .delete
  | "ex" => some .exists
  | "upd" => some .update
  | "lt" => some .lifetime
  | "try_get" => some .getOrNone
  | "try_set" => some .setIfNotExists
  | "none" => some .none
  | "true" => some (.bool true)
  | "false" => some (.bool false)
  | "type" => some .valueType
  | "vset" => some .vectorSet
  | "vget" => some .vectorGet
  | "vpop" => some .vectorPop
  | "vpush" => some .vectorAppend
  | "vlen" => some .vectorLength
  | "mex" => some .mapExists
  | "mget" => some .mapGet
  | "mset" => some .mapSet
  | "mdel" => some .mapDelete
  | "mlen" => some .mapLength
  | "int" => some .intType
  | "float" => some .floatType
  | "str" => some .stringType
  | "bool" => some .boolType
  | "vec" => some .vectorType
  | "map" => some .mapType
  | _ => Option.none

/-- `AnnotatedToken` from tokens.rs. -/
structure AnnotatedToken where
  token : Token
  position : Nat
  lexeme : String
deriving DecidableEq, Repr

/-! ### Tokenizer (src/server/src/analysis/tokenizer.rs)

The scanner state `(command, current_index)` is modelled by the suffix
`command.drop current_index` of the (lowercased) character vector together
with the absolute index; `self.view()` / `self.advance()` on an empty
suffix are the out-of-bounds accesses `command[current_index]` and are
modelled as panics.  Character classes use the ASCII fragment of the
corresponding Unicode-aware Rust predicates (all keywords and punctuation
are ASCII). -/

/-- The character U+007B (left curly bracket). -/
def lcurlyChar : Char := Char.ofNat 123

/-- The character U+007D (right curly bracket). -/
def rcurlyChar : Char := Char.ofNat 125

/-- `is_identifier_start_char`. -/
def isIdentifierStartChar (c : Char) : Bool := c.isAlpha || c == '_'

/-- `is_identifier_char`. -/
def isIdentifierChar (c : Char) : Bool := c.isAlphanum || c == '_'

/-- `is_valid_literal_end_char`: whitespace or one of `; : , ]` or the right
curly bracket. -/
def isValidLiteralEndChar (c : Char) : Bool :=
  c.isWhitespace || c == ';' || c == ':' || c == ',' || c == ']' || c == rcurlyChar

/-- Numeric value of a list of ASCII digits. -/
def digitsToNat (ds : List Char) : Nat :=
  ds.foldl (fun acc c => 10 * acc + (c.toNat - 48)) 0

/-- Modelled from Rust std `i64::from_str` (external to this repository):
an optional sign followed by at least one ASCII digit, rejected when the
value falls outside the `i64` range. -/
def parseI64Model (s : List Char) : Option Int :=
  match s with
  | '-' :: ds =>
    if !ds.isEmpty && ds.all Char.isDigit then
      let v := digitsToNat ds
      if v ≤ 2 ^ 63 then some (-(v : Int)) else Option.none
    else Option.none
  | '+' :: ds =>
    if !ds.isEmpty && ds.all Char.isDigit then
      let v := digitsToNat ds
      if v ≤ 2 ^ 63 - 1 then some (v : Int) else Option.none
    else Option.none
  | ds =>
    if !ds.isEmpty && ds.all Char.isDigit then
      let v := digitsToNat ds
      if v ≤ 2 ^ 63 - 1 then some (v : Int) else Option.none
    else Option.none

/-- Modelled from Rust std `f32::from_str` (external to this repository),
restricted to plain decimal literals: an optional sign, then characters
that are all digits or `.`, with at least one digit and at most one dot.
Exponent and special forms are not modelled (no verified property depends
on the acceptance set).  The accepted literal's text is kept as the opaque
`F32` payload. -/
def parseF32Model (s : List Char) : Option F32 :=
  let body := match s with
    | '-' :: rest => rest
    | '+' :: rest => rest
    | rest => rest
  if !body.isEmpty && body.all (fun c => c.isDigit || c == '.')
      && body.any Char.isDigit
      && body.count '.' ≤ 1 then
    some s
  else Option.none

/-- The whitespace-skipping loop at the top of `get_next_token`: `while
self.view().is_whitespace() { self.advance(); }`.  `view` on an exhausted
input is an out-of-bounds index, hence the panic on the empty suffix. -/
def skipWhitespace : List Char → Nat → Res (List Char × Nat)
  | [], _ => .error .panic
  | c :: rest, i =>
    if c.isWhitespace then skipWhitespace rest (i + 1) else .ok (c :: rest, i)

/-- The collection loop of `get_numeric`: gather characters until the end of
input or a literal-end character, recording whether a `.` was seen. -/
def getNumericLoop : List Char → Nat → List Char → Bool →
    List Char × Nat × List Char × Bool
  | [], i, acc, isFloat => (acc, i, [], isFloat)
  | c :: rest, i, acc, isFloat =>
    if isValidLiteralEndChar c then (acc, i, c :: rest, isFloat)
    else getNumericLoop rest (i + 1) (acc ++ [c]) (isFloat || c == '.')

/-- `get_numeric`: the first character is consumed by `self.advance()`, the
rest by the loop; the collected text is parsed as `f32` when a dot was
seen, else as `i64`. -/
def getNumeric : List Char → Nat → Res (Token × List Char × Nat)
  | [], _ => .error .panic
  | c :: rest, i =>
    match getNumericLoop rest (i + 1) [c] false with
    | (acc, i', rest', isFloat) =>
      if isFloat then
        match parseF32Model acc with
        | some v => .ok (.float v, rest', i')
        | Option.none => .error (.thrown (.tokenizationError
            ("Expected float literal, got \x27" ++ String.mk acc ++ "\x27")))
      else
        match parseI64Model acc with
        | some v => .ok (.integer v, rest', i')
        | Option.none => .error (.thrown (.tokenizationError
            ("Expected integer literal, got \x27" ++ String.mk acc ++ "\x27")))

/-- The body loop of `get_string`: consume characters up to the closing
quote, handling the escapes `\\ \" \r \t \n`; reaching the end of input
inside the literal (or right after a backslash) is an unterminated-string
error. -/
def getStringLoop : List Char → Nat → List Char → Res (List Char × List Char × Nat)
  | [], _, _ => .error (.thrown (.tokenizationError "Unterminated string found."))
  | c :: rest, i, acc =>
    if c == '\"' then .ok (acc, rest, i + 1)
    else if c == '\\' then
      match rest with
      | [] => .error (.thrown (.tokenizationError "Unterminated string found."))
      | e :: rest₂ =>
        if e == '\\' || e == '\"' then getStringLoop rest₂ (i + 2) (acc ++ [e])
        else if e == 'r' then getStringLoop rest₂ (i + 2) (acc ++ ['\r'])
        else if e == 't' then getStringLoop rest₂ (i + 2) (acc ++ ['\t'])
        else if e == 'n' then getStringLoop rest₂ (i + 2) (acc ++ ['\n'])
        else .error (.thrown (.tokenizationError
            ("Invalid escape character \x27" ++ String.mk [e] ++ "\x27 found")))
    else getStringLoop rest (i + 1) (acc ++ [c])

/-- `get_string`: consume the opening quote, run the body loop, then check
`is_valid_literal_end_char(self.view())` — a `view` that, at the end of the
input, indexes out of bounds (panic). -/
def getString : List Char → Nat → Res (Token × List Char × Nat)
  | [], _ => .error .panic
  | _ :: rest, i =>
    match getStringLoop rest (i + 1) [] with
    | .error err => .error err
    | .ok (acc, rest₂, i₂) =>
      match rest₂ with
      | [] => .error .panic
      | c :: _ =>
        if isValidLiteralEndChar c then .ok (.stringValue (String.mk acc), rest₂, i₂)
        else .error (.thrown (.tokenizationError
            "Invalid character found at the end of a string."))

/-- The collection loop of `get_identifier`. -/
def getIdentifierLoop : List Char → Nat → List Char → Res (List Char × List Char × Nat)
  | [], i, acc => .ok (acc, [], i)
  | c :: rest, i, acc =>
    if isValidLiteralEndChar c then .ok (acc, c :: rest, i)
    else if isIdentifierChar c then getIdentifierLoop rest (i + 1) (acc ++ [c])
    else .error (.thrown (.tokenizationError
        ("\x27" ++ String.mk [c] ++ "\x27 is an invalid identifier character.")))

/-- `get_identifier`: consume the first character, run the loop, then map
keywords through the word table. -/
def getIdentifier : List Char → Nat → Res (Token × List Char × Nat)
  | [], _ => .error .panic
  | c :: rest, i =>
    match getIdentifierLoop rest (i + 1) [c] with
    | .error err => .error err
    | .ok (acc, rest', i') =>
      let s := String.mk acc
      match wordToToken s with
      | some keywordToken => .ok (keywordToken, rest', i')
      | Option.none => .ok (.identifier s, rest', i')

/-- The dispatch on `next_char` inside `get_next_token`, after the
whitespace skip: `self.view()` (panic on exhausted input) followed by the
single-character tokens, `get_numeric`, `get_string` or `get_identifier`. -/
def scanToken : List Char → Nat → Res (Token × List Char × Nat)
  | [], _ => .error .panic
  | c :: r, i₀ =>
    if c == ';' then .ok (.semicolon, r, i₀ + 1)
    else if c == '[' then .ok (.leftBracket, r, i₀ + 1)
    else if c == ']' then .ok (.rightBracket, r, i₀ + 1)
    else if c == ',' then .ok (.comma, r, i₀ + 1)
    else if c == ':' then .ok (.colon, r, i₀ + 1)
    else if c == lcurlyChar then .ok (.leftCurlyBracket, r, i₀ + 1)
    else if c == rcurlyChar then .ok (.rightCurlyBracket, r, i₀ + 1)
    else if c.isDigit || c == '-' then getNumeric (c :: r) i₀
    else if c == '\"' then getString (c :: r) i₀
    else if isIdentifierStartChar c then getIdentifier (c :: r) i₀
    else .error (.thrown (.tokenizationError "Cannot build token."))

/-- `get_next_token`, returning the token together with the token's start
position, its lexeme (the consumed slice of the command, assembled here
rather than in the iterator wrapper), and the remaining suffix and index. -/
def getNextToken (rest : List Char) (i : Nat) :
    Res (Token × Nat × String × List Char × Nat) :=
  match skipWhitespace rest i with
  | .error err => .error err
  | .ok (rest₀, i₀) =>
    match scanToken rest₀ i₀ with
    | .error err => .error err
    | .ok (t, rest', i') =>
      .ok (t, i₀, String.mk (rest₀.take (i' - i₀)), rest', i')

/-- Supporting fact for termination: the whitespace loop never lengthens the
suffix, and on success returns a nonempty suffix. -/
theorem skipWhitespace_ok (rest : List Char) (i : Nat) {out : List Char × Nat}
    (h : skipWhitespace rest i = .ok out) :
    out.1.length ≤ rest.length ∧ out.1 ≠ [] := by
  induction rest generalizing i with
  | nil => simp [skipWhitespace] at h
  | cons c cs ih =>
    rw [skipWhitespace] at h
    by_cases hws : c.isWhitespace
    · simp only [hws, if_true] at h
      obtain ⟨h₁, h₂⟩ := ih (i + 1) h
      exact ⟨Nat.le_succ_of_le h₁, h₂⟩
    · simp only [hws, if_false] at h
      cases h
      exact ⟨Nat.le_refl _, by simp⟩

/-- Supporting fact for termination: the numeric loop never lengthens the
suffix. -/
theorem getNumericLoop_le (rest : List Char) (i : Nat) (acc : List Char)
    (isFloat : Bool) :
    (getNumericLoop rest i acc isFloat).2.2.1.length ≤ rest.length := by
  induction rest generalizing i acc isFloat with
  | nil => simp [getNumericLoop]
  | cons c cs ih =>
    rw [getNumericLoop]
    by_cases hend : isValidLiteralEndChar c
    · simp [hend]
    · simpa [hend] using Nat.le_succ_of_le (ih (i + 1) (acc ++ [c]) _)

/-- Supporting fact for termination: the string-body loop shortens the
suffix. -/
theorem getStringLoop_le (rest : List Char) (i : Nat) (acc : List Char)
    {out : List Char × List Char × Nat}
    (h : getStringLoop rest i acc = .ok out) :
    out.2.1.length < rest.length := by
  match rest with
  | [] => simp [getStringLoop] at h
  | c :: cs =>
    rw [getStringLoop.eq_def] at h
    simp only at h
    by_cases hq : c == '\"'
    · simp only [hq, if_true] at h
      cases h
      simp
    · by_cases hb : c == '\\'
      · simp only [hq, hb, if_true, if_false] at h
        match cs, h with
        | [], h => simp at h
        | e :: cs₂, h =>
          by_cases h₁ : e == '\\' || e == '\"' <;>
            by_cases h₂ : e == 'r' <;> by_cases h₃ : e == 't' <;>
            by_cases h₄ : e == 'n' <;>
            simp only [h₁, h₂, h₃, h₄, if_true, if_false] at h <;>
            first
            | exact Nat.lt_succ_of_lt
                (Nat.lt_succ_of_lt (getStringLoop_le cs₂ (i + 2) _ h))
            | simp at h
      · simp only [hq, hb, if_false] at h
        exact Nat.lt_succ_of_lt (getStringLoop_le cs (i + 1) _ h)

/-- Supporting fact for termination: the identifier loop never lengthens the
suffix. -/
theorem getIdentifierLoop_le (rest : List Char) (i : Nat) (acc : List Char)
    {out : List Char × List Char × Nat}
    (h : getIdentifierLoop rest i acc = .ok out) :
    out.2.1.length ≤ rest.length := by
  induction rest generalizing i acc with
  | nil =>
    rw [getIdentifierLoop] at h
    cases h
    simp
  | cons c cs ih =>
    rw [getIdentifierLoop] at h
    by_cases hend : isValidLiteralEndChar c
    · simp only [hend, if_true] at h
      cases h
      simp
    · by_cases hid : isIdentifierChar c
      · simp only [hend, hid, if_true, if_false] at h
        exact Nat.le_succ_of_le (ih _ _ h)
      · simp [hend, hid] at h

/-- Supporting fact for termination: a successful `get_numeric` strictly
shortens the suffix. -/
theorem getNumeric_lt (rest : List Char) (i : Nat)
    {out : Token × List Char × Nat} (h : getNumeric rest i = .ok out) :
    out.2.1.length < rest.length := by
  match rest with
  | [] => simp [getNumeric] at h
  | c :: cs =>
    rw [getNumeric] at h
    match hloop : getNumericLoop cs (i + 1) [c] false, h with
    | (acc, i₁, rest₁, isFloat), h =>
      have hlen := getNumericLoop_le cs (i + 1) [c] false
      rw [hloop] at hlen
      simp only at h hlen
      split at h
      · match hp : parseF32Model acc, h with
        | some v, h => simp only at h; cases h; exact Nat.lt_succ_of_le hlen
        | Option.none, h => simp at h
      · match hp : parseI64Model acc, h with
        | some v, h => simp only at h; cases h; exact Nat.lt_succ_of_le hlen
        | Option.none, h => simp at h

/-- Supporting fact for termination: a successful `get_string` strictly
shortens the suffix. -/
theorem getString_lt (rest : List Char) (i : Nat)
    {out : Token × List Char × Nat} (h : getString rest i = .ok out) :
    out.2.1.length < rest.length := by
  match rest with
  | [] => simp [getString] at h
  | c :: cs =>
    rw [getString] at h
    match hloop : getStringLoop cs (i + 1) [], h with
    | .error err, h => simp at h
    | .ok (acc, rest₂, i₂), h =>
      have hlen := getStringLoop_le cs (i + 1) [] hloop
      simp only at h hlen
      match rest₂, h, hlen with
      | c₂ :: r₂, h, hlen =>
        simp only at h
        split at h
        · cases h; exact Nat.lt_succ_of_lt hlen
        · cases h

/-- Supporting fact for termination: a successful `get_identifier` strictly
shortens the suffix. -/
theorem getIdentifier_lt (rest : List Char) (i : Nat)
    {out : Token × List Char × Nat} (h : getIdentifier rest i = .ok out) :
    out.2.1.length < rest.length := by
  match rest with
  | [] => simp [getIdentifier] at h
  | c :: cs =>
    rw [getIdentifier] at h
    match hloop : getIdentifierLoop cs (i + 1) [c], h with
    | .error err, h => simp at h
    | .ok (acc, rest₂, i₂), h =>
      have hlen := getIdentifierLoop_le cs (i + 1) [c] hloop
      simp only at h hlen
      split at h <;> cases h <;> exact Nat.lt_succ_of_le hlen

/-- Supporting fact for termination: a successful `scanToken` strictly
shortens the suffix. -/
theorem scanToken_lt (rest : List Char) (i : Nat)
    {out : Token × List Char × Nat} (h : scanToken rest i = .ok out) :
    out.2.1.length < rest.length := by
  match rest with
  | [] => simp [scanToken] at h
  | c :: cs =>
    rw [scanToken] at h
    split at h
    · cases h; simp
    · split at h
      · cases h; simp
      · split at h
        · cases h; simp
        · split at h
          · cases h; simp
          · split at h
            · cases h; simp
            · split at h
              · cases h; simp
              · split at h
                · cases h; simp
                · split at h
                  · exact getNumeric_lt _ _ h
                  · split at h
                    · exact getString_lt _ _ h
                    · split at h
                      · exact getIdentifier_lt _ _ h
                      · cases h

/-- Supporting fact for termination: a successful `get_next_token` strictly
shortens the suffix. -/
theorem getNextToken_lt (rest : List Char) (i : Nat)
    {out : Token × Nat × String × List Char × Nat}
    (h : getNextToken rest i = .ok out) :
    out.2.2.2.1.length < rest.length := by
  rw [getNextToken] at h
  match hws : skipWhitespace rest i, h with
  | .error err, h => simp at h
  | .ok (rest₀, i₀), h =>
    have hle := (skipWhitespace_ok rest i hws).1
    simp only at h
    cases hscan : scanToken rest₀ i₀ with
    | error err => rw [hscan] at h; simp at h
    | ok tri =>
      obtain ⟨t, rest', i'⟩ := tri
      rw [hscan] at h
      simp only at h
      cases h
      exact Nat.lt_of_lt_of_le (scanToken_lt rest₀ i₀ hscan) hle

/-- The `Iterator for Tokenizer` / `tokenize` loop: collect tokens until the
input is exhausted, stopping at (and returning) the first error. -/
def tokenizeLoop (rest : List Char) (i : Nat) : Res (List AnnotatedToken) :=
  if hr : rest.isEmpty then .ok []
  else
    match htok : getNextToken rest i with
    | .error err => .error err
    | .ok (t, s, lex, rest', i') =>
      match tokenizeLoop rest' i' with
      | .error err => .error err
      | .ok ts => .ok ({ token := t, position := s, lexeme := lex } :: ts)
termination_by rest.length
decreasing_by exact getNextToken_lt rest i htok

/-- Supporting fact: `Char.ofNat` of a valid code point round-trips. -/
theorem char_toNat_ofNat {n : Nat} (h : n.isValidChar) :
    (Char.ofNat n).toNat = n := by
  rw [Char.ofNat, dif_pos h]
  rfl

/-- Modelled from Rust std `str::to_lowercase` (external to this
repository), restricted to its ASCII fragment applied character by
character: an ASCII uppercase letter is shifted to its lowercase
counterpart, everything else is unchanged. -/
def toLowerChar (c : Char) : Char :=
  if 65 ≤ c.toNat ∧ c.toNat ≤ 90 then Char.ofNat (c.toNat + 32) else c

/-- The model of `command.to_lowercase()`. -/
def lowerString (s : String) : String :=
  String.mk (s.data.map toLowerChar)

/-- `Tokenizer::new` followed by `Tokenizer::tokenize`: lowercase the input,
take its character vector, and run the scanning loop from index 0. -/
def tokenizeStr (s : String) : Res (List AnnotatedToken) :=
  tokenizeLoop (s.data.map toLowerChar) 0

/-! ### Statements (src/server/src/analysis/statements.rs)

The `Statement` enum.  The version of statements.rs under src/ lacks the
`Shutdown`, `Null` and `ExpireKeys` variants and gives `MapExists` a single
field, but parser.rs and interpreter.rs (the operative code for the claims)
construct and match `Statement::Shutdown`, `Statement::Null`,
`Statement::ExpireKeys` and the two-field `Statement::MapExists(key,
element_key)`; the type here is the union those uses require. -/

/-- The `Statement` enum. -/
inductive Statement where
  | get (k : String)
  | set (k : String) (v : StorageVal) (lifetime : Option Nat)
  | update (k : String) (v : StorageVal) (lifetime : Option Nat)
  | exists (k : String)
  | delete (k : String)
  | getLifetime (k : String)
  | updateLifetime (k : String) (lifetime : Option Nat)
  | getIfExists (k : String)
  | setIfNotExists (k : String) (v : StorageVal) (lifetime : Option Nat)
  | vectorGet (k : String) (index : Nat)
  | vectorSet (k : String) (index : Nat) (v : StorageVal)
  | vectorAppend (k : String) (v : StorageVal)
  | vectorPop (k : String)
  | vectorLength (k : String)
  | mapGet (k : String) (mk : StorageVal)
  | mapSet (k : String) (mk : StorageVal) (v : StorageVal)
  | mapDelete (k : String) (mk : StorageVal)
  | mapLength (k : String)
  | mapExists (k : String) (mk : StorageVal)
  | valueType (k : String)
  | shutdown
  | null
  | expireKeys

/-! ### Parser (src/server/src/analysis/parser.rs)

The parser state `(tokens, current_token)` is modelled by the suffix
`tokens.drop current_token` of the annotated-token vector; `self.view()` /
`self.advance()` on an empty suffix are the out-of-bounds accesses
`tokens[current_token]` and are modelled as panics.  Each helper returns
the value it produces together with the remaining suffix. -/

/-- `strip_semicolons`. -/
def stripSemicolons : List AnnotatedToken → List AnnotatedToken
  | [] => []
  | t :: rest =>
    if t.token == .semicolon then stripSemicolons rest else t :: rest

/-- `is_at_statement_end`. -/
def isAtStatementEnd (toks : List AnnotatedToken) : Bool :=
  match toks with
  | [] => true
  | t :: _ => t.token == .semicolon

/-- `get_name_from_next_token`. -/
def getNameFromNextToken : List AnnotatedToken → Res (String × List AnnotatedToken)
  | [] => .error (.thrown (.parseError
      "Expected an identifier instead of the end of the query."))
  | t :: rest =>
    match t.token with
    | .identifier s => .ok (s, rest)
    | _ => .error (.thrown (.parseError
        ("Expected an identifier. Got " ++ t.lexeme ++ " at " ++ toString t.position)))

/-- `get_key_from_next_token`. -/
def getKeyFromNextToken : List AnnotatedToken → Res (StorageVal × List AnnotatedToken)
  | [] => .error (.thrown (.parseError
      "Expected an identifier instead of the end of the query."))
  | t :: rest =>
    match t.token with
    | .integer v => .ok (.int v, rest)
    | .stringValue s => .ok (.str s, rest)
    | _ => .error (.thrown (.parseError
        ("Expected a valid map key. Got " ++ t.lexeme ++ " at " ++ toString t.position)))

/-- `get_index_from_next_token`; `usize::try_from` fails exactly on negative
`i64` values. -/
def getIndexFromNextToken : List AnnotatedToken → Res (Nat × List AnnotatedToken)
  | [] => .error (.thrown (.parseError
      "Expected an identifier instead of the end of the query."))
  | t :: rest =>
    match t.token with
    | .integer v =>
      if v < 0 then
        .error (.thrown (.parseError
          ("Expected a valid vector index. Got " ++ t.lexeme ++ " at "
            ++ toString t.position)))
      else .ok (v.toNat, rest)
    | _ => .error (.thrown (.parseError
        ("Expected a valid vector index. Got " ++ t.lexeme ++ " at "
          ++ toString t.position)))

/-- `get_scalar_value_from_next_token`. -/
def getScalarValueFromNextToken :
    List AnnotatedToken → Res (StorageVal × List AnnotatedToken)
  | [] => .error (.thrown (.parseError
      "Expected an identifier instead of the end of the query."))
  | t :: rest =>
    match t.token with
    | .bool b => .ok (.bool b, rest)
    | .integer v => .ok (.int v, rest)
    | .float x => .ok (.float x, rest)
    | .stringValue s => .ok (.str s, rest)
    | _ => .error (.thrown (.parseError "Expected valid scalar value."))

/-- `process_identifier_statement`: `self.advance()` with no end-of-input
check, so an exhausted token list is an out-of-bounds index (panic). -/
def processIdentifierStatement (f : String → Statement) :
    List AnnotatedToken → Res (Statement × List AnnotatedToken)
  | [] => .error .panic
  | t :: rest =>
    match t.token with
    | .identifier s => .ok (f s, rest)
    | _ => .error (.thrown (.parseError
        ("Expected an identifier. Got " ++ t.lexeme ++ " at " ++ toString t.position)))

/-- `process_map_identifier_statement`. -/
def processMapIdentifierStatement (f : String → StorageVal → Statement)
    (toks : List AnnotatedToken) : Res (Statement × List AnnotatedToken) :=
  match getNameFromNextToken toks with
  | .error err => .error err
  | .ok (mapName, toks₁) =>
    match toks₁ with
    | [] => .error (.thrown (.parseError "Expected map key after map name."))
    | _ :: _ =>
      match getKeyFromNextToken toks₁ with
      | .error err => .error err
      | .ok (key, toks₂) => .ok (f mapName key, toks₂)

/-- `get_lifetime_from_next_token`; for a non-negative `i64` the
`try_into().unwrap()` always succeeds. -/
def getLifetimeFromNextToken (toks : List AnnotatedToken) :
    Res (Option Nat × List AnnotatedToken) :=
  if isAtStatementEnd toks then .ok (Option.none, toks)
  else
    match toks with
    | [] => .error .panic
    | t :: rest =>
      match t.token with
      | .integer v =>
        if v < 0 then
          .error (.thrown (.parseError "Expected a positive integer as a lifetime."))
        else .ok (some v.toNat, rest)
      | _ => .error (.thrown (.parseError "Expected an integer value for a lifetime."))

/-- `get_collection_type`. -/
def getCollectionType (t : Token) : Res CollectionType :=
  match t with
  | .boolType => .ok .bool
  | .floatType => .ok .float
  | .intType => .ok .int
  | .stringType => .ok .string
  | _ => .error (.thrown (.parseError "Expected a valid collection scalar type."))

/-- `get_key_type`. -/
def getKeyTypeFn (t : Token) : Res KeyType :=
  match t with
  | .intType => .ok .int
  | .stringType => .ok .string
  | _ => .error (.thrown (.parseError "Expected a valid key scalar type."))

/-- `is_collection_or_key_type`. -/
def isCollectionOrKeyType (t : Token) : Bool :=
  match t with
  | .boolType | .stringType | .floatType | .intType => true
  | _ => false

/-- Supporting fact for termination: a successful scalar read consumes
exactly one token. -/
theorem getScalarValueFromNextToken_lt (toks : List AnnotatedToken)
    {out : StorageVal × List AnnotatedToken}
    (h : getScalarValueFromNextToken toks = .ok out) :
    out.2.length < toks.length := by
  match toks with
  | [] => simp [getScalarValueFromNextToken] at h
  | t :: rest =>
    rw [getScalarValueFromNextToken] at h
    split at h <;> cases h <;> simp

/-- The element loop of `get_vector_value`: read a scalar, push it into the
vector (a failed push propagates the raw `TypeError`), then look at the
next token: `]` ends the literal (left unconsumed here; the caller
advances past it), `,` continues, end of input or anything else is a
`ParseError`. -/
def getVectorLoop (ct : CollectionType) (items : List StorageVal)
    (toks : List AnnotatedToken) : Res (List StorageVal × List AnnotatedToken) :=
  match hs : getScalarValueFromNextToken toks with
  | .error err => .error err
  | .ok (element, toks₁) =>
    match StorageVector.pushOp ct items element with
    | .error err => .error err
    | .ok items₁ =>
      match toks₁ with
      | [] => .error (.thrown (.parseError "Unfinished vector literal found."))
      | t :: toks₂ =>
        if t.token == .rightBracket then .ok (items₁, t :: toks₂)
        else if t.token == .comma then getVectorLoop ct items₁ toks₂
        else .error (.thrown (.parseError "Unexpected token after vector element."))
termination_by toks.length
decreasing_by
  have := getScalarValueFromNextToken_lt toks hs
  simp at this
  omega

/-- `get_vector_value`: consume the `[`; when the very next token is `]`
return the empty vector at once (the `]` is not consumed — the early
`return` skips the closing `self.advance()`); otherwise run the element
loop and consume the final `]`. -/
def getVectorValue (ct : CollectionType) :
    List AnnotatedToken → Res (StorageVal × List AnnotatedToken)
  | [] => .error .panic
  | _ :: toks₁ =>
    match toks₁ with
    | [] => .error .panic
    | t :: _ =>
      if t.token == .rightBracket then .ok (.vector ct [], toks₁)
      else
        match getVectorLoop ct [] toks₁ with
        | .error err => .error err
        | .ok (items, toksL) =>
          match toksL with
          | [] => .error .panic
          | _ :: toksF => .ok (.vector ct items, toksF)

/-- The entry loop of `get_map_value`: read a scalar key, a colon, a scalar
value, insert the pair (an insertion failure becomes a `ParseError`), then
look at the next token with a bare `self.view()` — out of bounds (panic)
when the literal ends the input. -/
def getMapLoop (kt : KeyType) (ct : CollectionType)
    (entries : List (StorageVal × StorageVal)) (toks : List AnnotatedToken) :
    Res (List (StorageVal × StorageVal) × List AnnotatedToken) :=
  match hs : getScalarValueFromNextToken toks with
  | .error err => .error err
  | .ok (elementKey, toks₁) =>
    match toks₁ with
    | [] => .error (.thrown (.parseError "Unfinished map literal found."))
    | colonTok :: toks₂ =>
      if colonTok.token != .colon then
        .error (.thrown (.parseError "Expected colon after key."))
      else
        match hs₂ : getScalarValueFromNextToken toks₂ with
        | .error err => .error err
        | .ok (elementValue, toks₃) =>
          match StorageMap.setOp kt ct entries elementKey elementValue with
          | .error _ => .error (.thrown (.parseError "Could not add element to map."))
          | .ok entries₁ =>
            match toks₃ with
            | [] => .error .panic
            | t :: toks₄ =>
              if t.token == .rightCurlyBracket then .ok (entries₁, t :: toks₄)
              else if t.token == .comma then getMapLoop kt ct entries₁ toks₄
              else .error (.thrown (.parseError "Unexpected token after key-value pair."))
termination_by toks.length
decreasing_by
  have h₁ := getScalarValueFromNextToken_lt toks hs
  have h₂ := getScalarValueFromNextToken_lt toks₂ hs₂
  simp at h₁ h₂
  omega

/-- `get_map_value`: consume the opening brace, check for an immediate
closing brace (returned unconsumed by the early `return`), else run the
entry loop and consume the closing brace. -/
def getMapValue (kt : KeyType) (ct : CollectionType) :
    List AnnotatedToken → Res (StorageVal × List AnnotatedToken)
  | [] => .error .panic
  | _ :: toks₁ =>
    match toks₁ with
    | [] => .error .panic
    | t :: _ =>
      if t.token == .rightCurlyBracket then .ok (.map kt ct [], toks₁)
      else
        match getMapLoop kt ct [] toks₁ with
        | .error err => .error err
        | .ok (entries, toksL) =>
          match toksL with
          | [] => .error .panic
          | _ :: toksF => .ok (.map kt ct entries, toksF)

/-- `get_collection_value_from_next_token`.  The map branch reproduces the
source's non-short-circuiting `is_at_statement_end() | (self.view().token
!= LeftCurlyBracket)`: both operands are evaluated, so `self.view()` runs
— and indexes out of bounds — even when the statement ends the input. -/
def getCollectionValueFromNextToken :
    List AnnotatedToken → Res (StorageVal × List AnnotatedToken)
  | [] => .error .panic
  | typeTok :: toks₁ =>
    if isAtStatementEnd toks₁ then
      match getCollectionType typeTok.token with
      | .error err => .error err
      | .ok ct => .ok (.vector ct [], toks₁)
    else
      match toks₁ with
      | [] => .error .panic
      | nextTok :: toks₂ =>
        if isCollectionOrKeyType nextTok.token then
          match getKeyTypeFn typeTok.token with
          | .error err => .error err
          | .ok keyType =>
            match getCollectionType nextTok.token with
            | .error err => .error err
            | .ok collectionType =>
              match toks₂ with
              | [] => .error .panic
              | v :: _ =>
                if isAtStatementEnd toks₂ || (v.token != .leftCurlyBracket) then
                  .ok (.map keyType collectionType [], toks₂)
                else
                  getMapValue keyType collectionType toks₂
        else if nextTok.token == .leftBracket then
          match getCollectionType typeTok.token with
          | .error err => .error err
          | .ok ct => getVectorValue ct toks₁
        else
          .error (.thrown (.parseError "Could not parse."))

/-- `get_value_from_next_token`. -/
def getValueFromNextToken (toks : List AnnotatedToken) :
    Res (StorageVal × List AnnotatedToken) :=
  if isAtStatementEnd toks then .ok (.null, toks)
  else
    match toks with
    | [] => .error .panic
    | t :: _ =>
      if isCollectionOrKeyType t.token then getCollectionValueFromNextToken toks
      else getScalarValueFromNextToken toks

/-- `Parser::delete`. -/
def deleteStmt (toks : List AnnotatedToken) : Res (Statement × List AnnotatedToken) :=
  processIdentifierStatement (fun x => .delete x) toks

/-- `Parser::exists`. -/
def existsStmt (toks : List AnnotatedToken) : Res (Statement × List AnnotatedToken) :=
  processIdentifierStatement (fun x => .exists x) toks

/-- `Parser::get`. -/
def getStmt (toks : List AnnotatedToken) : Res (Statement × List AnnotatedToken) :=
  processIdentifierStatement (fun x => .get x) toks

/-- `Parser::get_or_none`. -/
def getOrNoneStmt (toks : List AnnotatedToken) : Res (Statement × List AnnotatedToken) :=
  processIdentifierStatement (fun x => .getIfExists x) toks

/-- `Parser::map_delete`. -/
def mapDeleteStmt (toks : List AnnotatedToken) : Res (Statement × List AnnotatedToken) :=
  processMapIdentifierStatement (fun x y => .mapDelete x y) toks

/-- `Parser::map_exists`. -/
def mapExistsStmt (toks : List AnnotatedToken) : Res (Statement × List AnnotatedToken) :=
  processMapIdentifierStatement (fun x y => .mapExists x y) toks

/-- `Parser::map_get`. -/
def mapGetStmt (toks : List AnnotatedToken) : Res (Statement × List AnnotatedToken) :=
  processMapIdentifierStatement (fun x y => .mapGet x y) toks

/-- `Parser::map_length`. -/
def mapLengthStmt (toks : List AnnotatedToken) : Res (Statement × List AnnotatedToken) :=
  processIdentifierStatement (fun x => .mapLength x) toks

/-- `Parser::map_set`. -/
def mapSetStmt (toks : List AnnotatedToken) : Res (Statement × List AnnotatedToken) :=
  match getNameFromNextToken toks with
  | .error err => .error err
  | .ok (mapName, toks₁) =>
    match getKeyFromNextToken toks₁ with
    | .error err => .error err
    | .ok (key, toks₂) =>
      match getScalarValueFromNextToken toks₂ with
      | .error err => .error err
      | .ok (value, toks₃) => .ok (.mapSet mapName key value, toks₃)

/-- `Parser::set`. -/
def setStmt (toks : List AnnotatedToken) : Res (Statement × List AnnotatedToken) :=
  match getNameFromNextToken toks with
  | .error err => .error err
  | .ok (name, toks₁) =>
    match getValueFromNextToken toks₁ with
    | .error err => .error err
    | .ok (value, toks₂) =>
      match getLifetimeFromNextToken toks₂ with
      | .error err => .error err
      | .ok (lifetime, toks₃) => .ok (.set name value lifetime, toks₃)

/-- `Parser::set_if_not_exists`. -/
def setIfNotExistsStmt (toks : List AnnotatedToken) :
    Res (Statement × List AnnotatedToken) :=
  match getNameFromNextToken toks with
  | .error err => .error err
  | .ok (name, toks₁) =>
    match getValueFromNextToken toks₁ with
    | .error err => .error err
    | .ok (value, toks₂) =>
      match getLifetimeFromNextToken toks₂ with
      | .error err => .error err
      | .ok (lifetime, toks₃) => .ok (.setIfNotExists name value lifetime, toks₃)

/-- `Parser::set_lifetime`. -/
def setLifetimeStmt (toks : List AnnotatedToken) :
    Res (Statement × List AnnotatedToken) :=
  match getNameFromNextToken toks with
  | .error err => .error err
  | .ok (name, toks₁) =>
    match getLifetimeFromNextToken toks₁ with
    | .error err => .error err
    | .ok (lifetime, toks₂) => .ok (.updateLifetime name lifetime, toks₂)

/-- `Parser::shutdown`. -/
def shutdownStmt (toks : List AnnotatedToken) : Res (Statement × List AnnotatedToken) :=
  .ok (.shutdown, toks)

/-- `Parser::update`. -/
def updateStmt (toks : List AnnotatedToken) : Res (Statement × List AnnotatedToken) :=
  match getNameFromNextToken toks with
  | .error err => .error err
  | .ok (name, toks₁) =>
    match getValueFromNextToken toks₁ with
    | .error err => .error err
    | .ok (value, toks₂) =>
      match getLifetimeFromNextToken toks₂ with
      | .error err => .error err
      | .ok (lifetime, toks₃) => .ok (.update name value lifetime, toks₃)

/-- `Parser::value_type`. -/
def valueTypeStmt (toks : List AnnotatedToken) : Res (Statement × List AnnotatedToken) :=
  processIdentifierStatement (fun x => .valueType x) toks

/-- `Parser::vector_append`. -/
def vectorAppendStmt (toks : List AnnotatedToken) :
    Res (Statement × List AnnotatedToken) :=
  match getNameFromNextToken toks with
  | .error err => .error err
  | .ok (name, toks₁) =>
    match getScalarValueFromNextToken toks₁ with
    | .error err => .error err
    | .ok (value, toks₂) => .ok (.vectorAppend name value, toks₂)

/-- `Parser::vector_get`. -/
def vectorGetStmt (toks : List AnnotatedToken) : Res (Statement × List AnnotatedToken) :=
  match getNameFromNextToken toks with
  | .error err => .error err
  | .ok (name, toks₁) =>
    match getIndexFromNextToken toks₁ with
    | .error err => .error err
    | .ok (index, toks₂) => .ok (.vectorGet name index, toks₂)

/-- `Parser::vector_length`. -/
def vectorLengthStmt (toks : List AnnotatedToken) :
    Res (Statement × List AnnotatedToken) :=
  processIdentifierStatement (fun x => .vectorLength x) toks

/-- `Parser::vector_pop`. -/
def vectorPopStmt (toks : List AnnotatedToken) : Res (Statement × List AnnotatedToken) :=
  processIdentifierStatement (fun x => .vectorPop x) toks

/-- `Parser::vector_set`. -/
def vectorSetStmt (toks : List AnnotatedToken) : Res (Statement × List AnnotatedToken) :=
  match getNameFromNextToken toks with
  | .error err => .error err
  | .ok (name, toks₁) =>
    match getIndexFromNextToken toks₁ with
    | .error err => .error err
    | .ok (index, toks₂) =>
      match getScalarValueFromNextToken toks₂ with
      | .error err => .error err
      | .ok (value, toks₃) => .ok (.vectorSet name index value, toks₃)

/-- The keyword dispatch in `get_next_statement` (the `match token` block
after `self.advance()`).  The `Lifetime` token (keyword `lt`) has no
dispatch arm in the source and falls to the catch-all `ParseError`. -/
def dispatchStatement (t : AnnotatedToken) (rest : List AnnotatedToken) :
    Res (Statement × List AnnotatedToken) :=
  match t.token with
  | .delete => deleteStmt rest
  | .exists => existsStmt rest
  | .get => getStmt rest
  | .getOrNone => getOrNoneStmt rest
  | .mapDelete => mapDeleteStmt rest
  | .mapExists => mapExistsStmt rest
  | .mapGet => mapGetStmt rest
  | .mapLength => mapLengthStmt rest
  | .mapSet => mapSetStmt rest
  | .set => setStmt rest
  | .setIfNotExists => setIfNotExistsStmt rest
  | .setLifetime => setLifetimeStmt rest
  | .shutdown => shutdownStmt rest
  | .update => updateStmt rest
  | .valueType => valueTypeStmt rest
  | .vectorAppend => vectorAppendStmt rest
  | .vectorGet => vectorGetStmt rest
  | .vectorLength => vectorLengthStmt rest
  | .vectorPop => vectorPopStmt rest
  | .vectorSet => vectorSetStmt rest
  | _ => .error (.thrown (.parseError
      ("Cannot parse " ++ t.lexeme ++ " at position " ++ toString t.position
        ++ ". Expected a command keyword")))

/-- `get_next_statement`: strip semicolons, stop at the end of the tokens,
else take the keyword token (`self.advance()`) and dispatch. -/
def getNextStatement (toks : List AnnotatedToken) :
    Res (Option Statement × List AnnotatedToken) :=
  match stripSemicolons toks with
  | [] => .ok (Option.none, [])
  | t :: rest =>
    match dispatchStatement t rest with
    | .error err => .error err
    | .ok (statement, rest') => .ok (some statement, rest')

/-- Supporting fact for termination: stripping semicolons never lengthens
the suffix. -/
theorem stripSemicolons_le (toks : List AnnotatedToken) :
    (stripSemicolons toks).length ≤ toks.length := by
  induction toks with
  | nil => simp [stripSemicolons]
  | cons t rest ih =>
    rw [stripSemicolons]
    split
    · exact Nat.le_succ_of_le ih
    · exact Nat.le_refl _

/-- Supporting fact for termination: single-token readers consume at least
nothing and at most everything; a successful read leaves a shorter suffix. -/
theorem getNameFromNextToken_le (toks : List AnnotatedToken)
    {out : String × List AnnotatedToken}
    (h : getNameFromNextToken toks = .ok out) : out.2.length ≤ toks.length := by
  match toks with
  | [] => simp [getNameFromNextToken] at h
  | t :: rest =>
    rw [getNameFromNextToken] at h
    split at h <;> cases h <;> simp

/-- Supporting fact for termination, as `getNameFromNextToken_le`. -/
theorem getKeyFromNextToken_le (toks : List AnnotatedToken)
    {out : StorageVal × List AnnotatedToken}
    (h : getKeyFromNextToken toks = .ok out) : out.2.length ≤ toks.length := by
  match toks with
  | [] => simp [getKeyFromNextToken] at h
  | t :: rest =>
    rw [getKeyFromNextToken] at h
    split at h <;> first
      | (cases h; simp)
      | cases h

/-- Supporting fact for termination, as `getNameFromNextToken_le`. -/
theorem getIndexFromNextToken_le (toks : List AnnotatedToken)
    {out : Nat × List AnnotatedToken}
    (h : getIndexFromNextToken toks = .ok out) : out.2.length ≤ toks.length := by
  match toks with
  | [] => simp [getIndexFromNextToken] at h
  | t :: rest =>
    rw [getIndexFromNextToken] at h
    split at h
    · split at h <;> cases h <;> simp
    · cases h

/-- Supporting fact for termination, as `getNameFromNextToken_le`. -/
theorem getLifetimeFromNextToken_le (toks : List AnnotatedToken)
    {out : Option Nat × List AnnotatedToken}
    (h : getLifetimeFromNextToken toks = .ok out) : out.2.length ≤ toks.length := by
  rw [getLifetimeFromNextToken.eq_def] at h
  split at h
  · cases h; exact Nat.le_refl _
  · split at h
    · simp at h
    · split at h
      · split at h
        · simp at h
        · cases h; simp
      · simp at h

/-- Supporting fact for termination, as `getNameFromNextToken_le`. -/
theorem processIdentifierStatement_le (f : String → Statement)
    (toks : List AnnotatedToken) {out : Statement × List AnnotatedToken}
    (h : processIdentifierStatement f toks = .ok out) :
    out.2.length ≤ toks.length := by
  match toks with
  | [] => simp [processIdentifierStatement] at h
  | t :: rest =>
    rw [processIdentifierStatement] at h
    split at h <;> cases h <;> simp

/-- Supporting fact for termination, as `getNameFromNextToken_le`. -/
theorem processMapIdentifierStatement_le (f : String → StorageVal → Statement)
    (toks : List AnnotatedToken) {out : Statement × List AnnotatedToken}
    (h : processMapIdentifierStatement f toks = .ok out) :
    out.2.length ≤ toks.length := by
  rw [processMapIdentifierStatement] at h
  match hn : getNameFromNextToken toks, h with
  | .error err, h => simp at h
  | .ok (mapName, toks₁), h =>
    have h₁ := getNameFromNextToken_le toks hn
    simp only at h h₁
    match toks₁, h, h₁ with
    | [], h, h₁ => simp at h
    | u :: toks₁', h, h₁ =>
      match hk : getKeyFromNextToken (u :: toks₁'), h with
      | .error err, h => simp at h
      | .ok (key, toks₂), h =>
        have h₂ := getKeyFromNextToken_le (u :: toks₁') hk
        simp only at h h₂
        cases h
        exact Nat.le_trans h₂ h₁

/-- Supporting fact for termination: the vector-literal loop never
lengthens the suffix. -/
theorem getVectorLoop_le (ct : CollectionType) (items : List StorageVal)
    (toks : List AnnotatedToken)
    {out : List StorageVal × List AnnotatedToken}
    (h : getVectorLoop ct items toks = .ok out) : out.2.length ≤ toks.length := by
  rw [getVectorLoop] at h
  split at h
  · simp at h
  · rename_i element toks₁ hs
    have h₁ := getScalarValueFromNextToken_lt toks hs
    split at h
    · simp at h
    · rename_i items₁ hpush
      split at h
      · simp at h
      · rename_i u toks₂
        split at h
        · cases h; exact Nat.le_of_lt h₁
        · split at h
          · have h₂ := getVectorLoop_le ct items₁ toks₂ h
            simp at h₁
            omega
          · simp at h
termination_by toks.length
decreasing_by simp at h₁; omega

/-- Supporting fact for termination: the map-literal loop never lengthens
the suffix. -/
theorem getMapLoop_le (kt : KeyType) (ct : CollectionType)
    (entries : List (StorageVal × StorageVal)) (toks : List AnnotatedToken)
    {out : List (StorageVal × StorageVal) × List AnnotatedToken}
    (h : getMapLoop kt ct entries toks = .ok out) : out.2.length ≤ toks.length := by
  rw [getMapLoop] at h
  split at h
  · simp at h
  · rename_i elementKey toks₁ hs
    have h₁ := getScalarValueFromNextToken_lt toks hs
    split at h
    · simp at h
    · rename_i colonTok toks₂
      split at h
      · simp at h
      · split at h
        · simp at h
        · rename_i elementValue toks₃ hs₂
          have h₂ := getScalarValueFromNextToken_lt toks₂ hs₂
          split at h
          · simp at h
          · rename_i entries₁ hset
            split at h
            · simp at h
            · rename_i u toks₄
              split at h
              · cases h
                simp at h₁ h₂ ⊢
                omega
              · split at h
                · have h₃ := getMapLoop_le kt ct entries₁ toks₄ h
                  simp at h₁ h₂
                  omega
                · simp at h
termination_by toks.length
decreasing_by
  simp at h₁ h₂
  omega

/-- Supporting fact for termination: `get_vector_value` never lengthens the
suffix. -/
theorem getVectorValue_le (ct : CollectionType) (toks : List AnnotatedToken)
    {out : StorageVal × List AnnotatedToken}
    (h : getVectorValue ct toks = .ok out) : out.2.length ≤ toks.length := by
  rw [getVectorValue.eq_def] at h
  split at h
  · simp at h
  · rename_i b toks₁
    split at h
    · simp at h
    · rename_i t toksT
      split at h
      · cases h; simp
      · split at h
        · simp at h
        · rename_i items toksL hl
          have hL := getVectorLoop_le ct [] _ hl
          split at h
          · simp at h
          · rename_i u toksF
            cases h
            simp at hL ⊢
            omega

/-- Supporting fact for termination: `get_map_value` never lengthens the
suffix. -/
theorem getMapValue_le (kt : KeyType) (ct : CollectionType)
    (toks : List AnnotatedToken) {out : StorageVal × List AnnotatedToken}
    (h : getMapValue kt ct toks = .ok out) : out.2.length ≤ toks.length := by
  rw [getMapValue.eq_def] at h
  split at h
  · simp at h
  · rename_i b toks₁
    split at h
    · simp at h
    · rename_i t toksT
      split at h
      · cases h; simp
      · split at h
        · simp at h
        · rename_i entries toksL hl
          have hL := getMapLoop_le kt ct [] _ hl
          split at h
          · simp at h
          · rename_i u toksF
            cases h
            simp at hL ⊢
            omega

/-- Supporting fact for termination: `get_collection_value_from_next_token`
never lengthens the suffix. -/
theorem getCollectionValueFromNextToken_le (toks : List AnnotatedToken)
    {out : StorageVal × List AnnotatedToken}
    (h : getCollectionValueFromNextToken toks = .ok out) :
    out.2.length ≤ toks.length := by
  rw [getCollectionValueFromNextToken.eq_def] at h
  split at h
  · simp at h
  · split at h
    · split at h
      · simp at h
      · cases h; simp
    · split at h
      · simp at h
      · split at h
        · split at h
          · simp at h
          · split at h
            · simp at h
            · split at h
              · simp at h
              · split at h
                · cases h; simp
                · have := getMapValue_le _ _ _ h
                  simp at this ⊢
                  omega
        · split at h
          · split at h
            · simp at h
            · have := getVectorValue_le _ _ h
              simp at this ⊢
              omega
          · simp at h

/-- Supporting fact for termination: `get_value_from_next_token` never
lengthens the suffix. -/
theorem getValueFromNextToken_le (toks : List AnnotatedToken)
    {out : StorageVal × List AnnotatedToken}
    (h : getValueFromNextToken toks = .ok out) : out.2.length ≤ toks.length := by
  rw [getValueFromNextToken.eq_def] at h
  split at h
  · cases h; exact Nat.le_refl _
  · split at h
    · simp at h
    · split at h
      · exact getCollectionValueFromNextToken_le _ h
      · exact Nat.le_of_lt (getScalarValueFromNextToken_lt _ h)

/-- Supporting fact for termination: `Parser::map_set` never lengthens the
suffix. -/
theorem mapSetStmt_le (toks : List AnnotatedToken)
    {out : Statement × List AnnotatedToken}
    (h : mapSetStmt toks = .ok out) : out.2.length ≤ toks.length := by
  rw [mapSetStmt] at h
  split at h
  · simp at h
  · rename_i mapName toks₁ hn
    have h₁ := getNameFromNextToken_le _ hn
    split at h
    · simp at h
    · rename_i key toks₂ hk
      have h₂ := getKeyFromNextToken_le _ hk
      split at h
      · simp at h
      · rename_i value toks₃ hv
        have h₃ := getScalarValueFromNextToken_lt _ hv
        cases h
        simp at h₁ h₂ h₃ ⊢
        omega

/-- Supporting fact for termination: `Parser::set` never lengthens the
suffix. -/
theorem setStmt_le (toks : List AnnotatedToken)
    {out : Statement × List AnnotatedToken}
    (h : setStmt toks = .ok out) : out.2.length ≤ toks.length := by
  rw [setStmt] at h
  split at h
  · simp at h
  · rename_i name toks₁ hn
    have h₁ := getNameFromNextToken_le _ hn
    split at h
    · simp at h
    · rename_i value toks₂ hv
      have h₂ := getValueFromNextToken_le _ hv
      split at h
      · simp at h
      · rename_i lifetime toks₃ hl
        have h₃ := getLifetimeFromNextToken_le _ hl
        cases h
        simp at h₁ h₂ h₃ ⊢
        omega

/-- Supporting fact for termination: `Parser::set_if_not_exists` never
lengthens the suffix. -/
theorem setIfNotExistsStmt_le (toks : List AnnotatedToken)
    {out : Statement × List AnnotatedToken}
    (h : setIfNotExistsStmt toks = .ok out) : out.2.length ≤ toks.length := by
  rw [setIfNotExistsStmt] at h
  split at h
  · simp at h
  · rename_i name toks₁ hn
    have h₁ := getNameFromNextToken_le _ hn
    split at h
    · simp at h
    · rename_i value toks₂ hv
      have h₂ := getValueFromNextToken_le _ hv
      split at h
      · simp at h
      · rename_i lifetime toks₃ hl
        have h₃ := getLifetimeFromNextToken_le _ hl
        cases h
        simp at h₁ h₂ h₃ ⊢
        omega

/-- Supporting fact for termination: `Parser::set_lifetime` never lengthens
the suffix. -/
theorem setLifetimeStmt_le (toks : List AnnotatedToken)
    {out : Statement × List AnnotatedToken}
    (h : setLifetimeStmt toks = .ok out) : out.2.length ≤ toks.length := by
  rw [setLifetimeStmt] at h
  split at h
  · simp at h
  · rename_i name toks₁ hn
    have h₁ := getNameFromNextToken_le _ hn
    split at h
    · simp at h
    · rename_i lifetime toks₂ hl
      have h₂ := getLifetimeFromNextToken_le _ hl
      cases h
      simp at h₁ h₂ ⊢
      omega

/-- Supporting fact for termination: `Parser::update` never lengthens the
suffix. -/
theorem updateStmt_le (toks : List AnnotatedToken)
    {out : Statement × List AnnotatedToken}
    (h : updateStmt toks = .ok out) : out.2.length ≤ toks.length := by
  rw [updateStmt] at h
  split at h
  · simp at h
  · rename_i name toks₁ hn
    have h₁ := getNameFromNextToken_le _ hn
    split at h
    · simp at h
    · rename_i value toks₂ hv
      have h₂ := getValueFromNextToken_le _ hv
      split at h
      · simp at h
      · rename_i lifetime toks₃ hl
        have h₃ := getLifetimeFromNextToken_le _ hl
        cases h
        simp at h₁ h₂ h₃ ⊢
        omega

/-- Supporting fact for termination: `Parser::vector_append` never lengthens
the suffix. -/
theorem vectorAppendStmt_le (toks : List AnnotatedToken)
    {out : Statement × List AnnotatedToken}
    (h : vectorAppendStmt toks = .ok out) : out.2.length ≤ toks.length := by
  rw [vectorAppendStmt] at h
  split at h
  · simp at h
  · rename_i name toks₁ hn
    have h₁ := getNameFromNextToken_le _ hn
    split at h
    · simp at h
    · rename_i value toks₂ hv
      have h₂ := getScalarValueFromNextToken_lt _ hv
      cases h
      simp at h₁ h₂ ⊢
      omega

/-- Supporting fact for termination: `Parser::vector_get` never lengthens
the suffix. -/
theorem vectorGetStmt_le (toks : List AnnotatedToken)
    {out : Statement × List AnnotatedToken}
    (h : vectorGetStmt toks = .ok out) : out.2.length ≤ toks.length := by
  rw [vectorGetStmt] at h
  split at h
  · simp at h
  · rename_i name toks₁ hn
    have h₁ := getNameFromNextToken_le _ hn
    split at h
    · simp at h
    · rename_i index toks₂ hi
      have h₂ := getIndexFromNextToken_le _ hi
      cases h
      simp at h₁ h₂ ⊢
      omega

/-- Supporting fact for termination: `Parser::vector_set` never lengthens
the suffix. -/
theorem vectorSetStmt_le (toks : List AnnotatedToken)
    {out : Statement × List AnnotatedToken}
    (h : vectorSetStmt toks = .ok out) : out.2.length ≤ toks.length := by
  rw [vectorSetStmt] at h
  split at h
  · simp at h
  · rename_i name toks₁ hn
    have h₁ := getNameFromNextToken_le _ hn
    split at h
    · simp at h
    · rename_i index toks₂ hi
      have h₂ := getIndexFromNextToken_le _ hi
      split at h
      · simp at h
      · rename_i value toks₃ hv
        have h₃ := getScalarValueFromNextToken_lt _ hv
        cases h
        simp at h₁ h₂ h₃ ⊢
        omega

/-- Supporting fact for termination: the keyword dispatch never lengthens
the suffix. -/
theorem dispatchStatement_le (t : AnnotatedToken) (rest : List AnnotatedToken)
    {out : Statement × List AnnotatedToken}
    (h : dispatchStatement t rest = .ok out) : out.2.length ≤ rest.length := by
  rw [dispatchStatement] at h
  split at h
  · exact processIdentifierStatement_le _ _ h
  · exact processIdentifierStatement_le _ _ h
  · exact processIdentifierStatement_le _ _ h
  · exact processIdentifierStatement_le _ _ h
  · exact processMapIdentifierStatement_le _ _ h
  · exact processMapIdentifierStatement_le _ _ h
  · exact processMapIdentifierStatement_le _ _ h
  · exact processIdentifierStatement_le _ _ h
  · exact mapSetStmt_le _ h
  · exact setStmt_le _ h
  · exact setIfNotExistsStmt_le _ h
  · exact setLifetimeStmt_le _ h
  · cases h; exact Nat.le_refl _
  · exact updateStmt_le _ h
  · exact processIdentifierStatement_le _ _ h
  · exact vectorAppendStmt_le _ h
  · exact vectorGetStmt_le _ h
  · exact processIdentifierStatement_le _ _ h
  · exact processIdentifierStatement_le _ _ h
  · exact vectorSetStmt_le _ h
  · simp at h

/-- Supporting fact for termination: a statement produced by
`get_next_statement` strictly shortens the suffix. -/
theorem getNextStatement_lt (toks : List AnnotatedToken)
    {st : Statement} {rest' : List AnnotatedToken}
    (h : getNextStatement toks = .ok (some st, rest')) :
    rest'.length < toks.length := by
  rw [getNextStatement] at h
  have hstrip := stripSemicolons_le toks
  cases hs : stripSemicolons toks with
  | nil => rw [hs] at h; simp at h
  | cons t rest =>
    rw [hs] at h
    rw [hs] at hstrip
    simp only at h
    split at h
    · simp at h
    · rename_i statement restD hd
      have hdl := dispatchStatement_le t rest hd
      cases h
      simp at hstrip hdl ⊢
      omega

/-- The `Iterator for Parser` / `parse` loop: collect statements until
`get_next_statement` reports the end of the tokens, stopping at (and
returning) the first error. -/
def parseLoop (toks : List AnnotatedToken) : Res (List Statement) :=
  match hn : getNextStatement toks with
  | .error err => .error err
  | .ok (Option.none, _) => .ok []
  | .ok (some statement, rest') =>
    match parseLoop rest' with
    | .error err => .error err
    | .ok statements => .ok (statement :: statements)
termination_by toks.length
decreasing_by exact getNextStatement_lt toks hn

/-- `Parser::new` on a token list followed by `Parser::parse`. -/
def parseTokens (toks : List AnnotatedToken) : Res (List Statement) :=
  parseLoop toks

/-! ### Interpreter (src/server/src/analysis/interpreter.rs, src/server/src/auth.rs)

Two sources of nondeterminism are passed explicitly: the current instant
`now` (one per request) and the stream `rng` of random draws consumed by
the expiration sweep. -/

/-- `AuthorizationLevel` from auth.rs. -/
inductive AuthorizationLevel where
  | admin
  | write
  | read
deriving DecidableEq, Repr

/-- The `ValueType` output enum from interpreter.rs. -/
inductive VType where
  | null
  | bool
  | int
  | float
  | string
  | vector (ct : CollectionType)
  | map (kt : KeyType) (ct : CollectionType)
deriving DecidableEq, Repr

/-- `InterpreterResponse` from interpreter.rs. -/
inductive Response where
  | value (v : StorageVal)
  | message (s : String)
  | size (n : Nat)
  | expiration (e : Option Nat)
  | key (k : String)
  | bool (b : Bool)
  | valueType (t : VType)
  | shuttingDown
  | null

/-- The per-statement test inside `validate_authorization`: `Shutdown`
needs `Admin`; the mutating statements need `Admin` or `Write`; everything
else is allowed. -/
def authCheckStmt (statement : Statement) (authorization : AuthorizationLevel) : Bool :=
  match statement with
  | .shutdown => authorization == .admin
  | .delete .. | .set .. | .setIfNotExists .. | .vectorSet .. | .vectorAppend ..
  | .vectorPop .. | .mapSet .. | .mapDelete .. | .update ..
  | .updateLifetime .. => (authorization == .admin) || (authorization == .write)
  | _ => true

/-- `validate_authorization`: walk the statements, stopping at the first
unauthorized one. -/
def validateAuthorization : List Statement → AuthorizationLevel → Res Unit
  | [], _ => .ok ()
  | statement :: rest, authorization =>
    if authCheckStmt statement authorization then
      validateAuthorization rest authorization
    else
      .error (.thrown (.authorizationError
        "User is not authorized to perform this query."))

/-- `Storage::get_mut` for `HashMapStorage` (the read half: the checks the
source performs before handing out the `&mut`). -/
def getMutEl (σ : HashMapStorage) (now : Nat) (key : String) : Res StorageElement :=
  match hmGet σ.storage key with
  | some c =>
    if c.element.isExpired now then .error (.thrown (makeKeyError key))
    else .ok c.element
  | none => .error (.thrown (.keyError ("No item with index " ++ key ++ " found.")))

/-- Writing through the `&mut StorageElement` returned by `get_mut`: replace
the element's value in place (key index and expiration untouched). -/
def setValueInPlace (σ : HashMapStorage) (key : String) (v : StorageVal) :
    HashMapStorage :=
  { σ with storage := σ.storage.map (fun p =>
      if p.1 == key then (p.1, { p.2 with element := { p.2.element with value := v } })
      else p) }

/-- `Interpreter::get_lifetime`: `duration_since` fails when the expiration
lies strictly before `now` (`IndexError`), else the remaining whole
seconds. -/
def getLifetimeResp (σ : HashMapStorage) (now : Nat) (key : String) : Res Response :=
  match getElem σ now key with
  | .error err => .error err
  | .ok element =>
    match element.expiration with
    | Option.none => .ok (.expiration Option.none)
    | some timestamp =>
      if timestamp < now then
        .error (.thrown (.indexError ("No entry found for key " ++ key)))
      else .ok (.expiration (some (timestamp - now)))

/-- `Interpreter::value_type`. -/
def valueTypeResp (σ : HashMapStorage) (now : Nat) (key : String) : Res Response :=
  match getElem σ now key with
  | .error err => .error err
  | .ok element =>
    let t : VType :=
      match element.value with
      | .null => .null
      | .bool _ => .bool
      | .int _ => .int
      | .float _ => .float
      | .str _ => .string
      | .vector ct _ => .vector ct
      | .map kt ct _ => .map kt ct
    .ok (.valueType t)

/-- `Interpreter::process_statement`: dispatch one statement against the
storage, returning the response, the updated storage, and the unconsumed
random draws. -/
def processStatement (σ : HashMapStorage) (now : Nat) (rng : List Nat) :
    Statement → Res Response × HashMapStorage × List Nat
  | .shutdown => (.ok .shuttingDown, σ, rng)
  | .null => (.ok .null, σ, rng)
  | .get key =>
    match getElem σ now key with
    | .error err => (.error err, σ, rng)
    | .ok element => (.ok (.value element.value), σ, rng)
  | .exists key => (.ok (.bool (containsKey σ now key)), σ, rng)
  | .getIfExists key =>
    match getIfExists σ now key with
    | .error err => (.error err, σ, rng)
    | .ok (some element) => (.ok (.value element.value), σ, rng)
    | .ok Option.none => (.ok (.value .null), σ, rng)
  | .getLifetime key => (getLifetimeResp σ now key, σ, rng)
  | .expireKeys =>
    match invalidateExpiredKeys σ now (rng.headD 0) with
    | .error err => (.error err, σ, rng.tail)
    | .ok (count, σ₁) => (.ok (.size count), σ₁, rng.tail)
  | .delete key =>
    match deleteOp σ now key with
    | .error err => (.error err, σ, rng)
    | .ok (removed, σ₁) => (.ok (.bool removed), σ₁, rng)
  | .set key v lifetime =>
    let expiration := lifetime.map (fun t => now + t)
    match setOp σ key { key := key, expiration := expiration, value := v } with
    | .error err => (.error err, σ, rng)
    | .ok σ₁ => (.ok (.message "Ok"), σ₁, rng)
  | .setIfNotExists key v lifetime =>
    let expiration := lifetime.map (fun t => now + t)
    match setIfNotExists σ key { key := key, expiration := expiration, value := v } with
    | .error err => (.error err, σ, rng)
    | .ok (inserted, σ₁) => (.ok (.bool inserted), σ₁, rng)
  | .update key v lifetime =>
    let expiration := lifetime.map (fun t => now + t)
    match updateOp σ now key { key := key, expiration := expiration, value := v } with
    | .error err => (.error err, σ, rng)
    | .ok σ₁ => (.ok (.message "Ok"), σ₁, rng)
  | .updateLifetime key lifetime =>
    let expiration := lifetime.map (fun t => now + t)
    match updateExpiration σ now key expiration with
    | .error err => (.error err, σ, rng)
    | .ok σ₁ => (.ok (.message "Ok"), σ₁, rng)
  | .vectorGet key index =>
    match getElem σ now key with
    | .error err => (.error err, σ, rng)
    | .ok element =>
      match element.value with
      | .vector _ items =>
        match StorageVector.getOp items index with
        | .error err => (.error err, σ, rng)
        | .ok v => (.ok (.value v), σ, rng)
      | _ => (.error (.thrown (.typeError
          ("Element with key \x27" ++ key ++ "\x27 not a vector."))), σ, rng)
  | .vectorLength key =>
    match getElem σ now key with
    | .error err => (.error err, σ, rng)
    | .ok element =>
      match element.value with
      | .vector _ items => (.ok (.size items.length), σ, rng)
      | _ => (.error (.thrown (.typeError
          ("Element with key \x27" ++ key ++ "\x27 not a vector."))), σ, rng)
  | .vectorAppend key v =>
    match getMutEl σ now key with
    | .error err => (.error err, σ, rng)
    | .ok element =>
      match element.value with
      | .vector ct items =>
        match StorageVector.pushOp ct items v with
        | .error err => (.error err, σ, rng)
        | .ok items₁ =>
          (.ok (.message "Ok"), setValueInPlace σ key (.vector ct items₁), rng)
      | _ => (.error (.thrown (.typeError
          ("Element with key \x27" ++ key ++ "\x27 not a vector."))), σ, rng)
  | .vectorPop key =>
    match getMutEl σ now key with
    | .error err => (.error err, σ, rng)
    | .ok element =>
      match element.value with
      | .vector ct items =>
        match StorageVector.popOp items with
        | (Option.none, items₁) =>
          (.ok (.value .null), setValueInPlace σ key (.vector ct items₁), rng)
        | (some v, items₁) =>
          (.ok (.value v), setValueInPlace σ key (.vector ct items₁), rng)
      | _ => (.error (.thrown (.typeError
          ("Element with key \x27" ++ key ++ "\x27 not a vector."))), σ, rng)
  | .vectorSet key index v =>
    match getMutEl σ now key with
    | .error err => (.error err, σ, rng)
    | .ok element =>
      match element.value with
      | .vector ct items =>
        match StorageVector.setOp ct items index v with
        | .error err => (.error err, σ, rng)
        | .ok items₁ =>
          (.ok (.message "Ok"), setValueInPlace σ key (.vector ct items₁), rng)
      | _ => (.error (.thrown (.typeError
          ("Element with key \x27" ++ key ++ "\x27 not a vector."))), σ, rng)
  | .mapGet key mapKey =>
    match getElem σ now key with
    | .error err => (.error err, σ, rng)
    | .ok element =>
      match element.value with
      | .map kt _ entries =>
        match StorageMap.getOp kt entries mapKey with
        | .error err => (.error err, σ, rng)
        | .ok v => (.ok (.value v), σ, rng)
      | _ => (.error (.thrown (.typeError
          ("Element with key \x27" ++ key ++ "\x27 not a map."))), σ, rng)
  | .mapLength key =>
    match getElem σ now key with
    | .error err => (.error err, σ, rng)
    | .ok element =>
      match element.value with
      | .map _ _ entries => (.ok (.size entries.length), σ, rng)
      | _ => (.error (.thrown (.typeError
          ("Element with key \x27" ++ key ++ "\x27 not a map."))), σ, rng)
  | .mapExists key mapKey =>
    match getElem σ now key with
    | .error err => (.error err, σ, rng)
    | .ok element =>
      match element.value with
      | .map kt _ entries =>
        match StorageMap.containsKeyOp kt entries mapKey with
        | .error err => (.error err, σ, rng)
        | .ok b => (.ok (.bool b), σ, rng)
      | _ => (.error (.thrown (.typeError
          ("Element with key \x27" ++ key ++ "\x27 not a map."))), σ, rng)
  | .mapSet key mapKey v =>
    match getMutEl σ now key with
    | .error err => (.error err, σ, rng)
    | .ok element =>
      match element.value with
      | .map kt ct entries =>
        match StorageMap.setOp kt ct entries mapKey v with
        | .error err => (.error err, σ, rng)
        | .ok entries₁ =>
          (.ok (.message "Ok"), setValueInPlace σ key (.map kt ct entries₁), rng)
      | _ => (.error (.thrown (.typeError
          ("Element with key \x27" ++ key ++ "\x27 not a map."))), σ, rng)
  | .mapDelete key mapKey =>
    match getMutEl σ now key with
    | .error err => (.error err, σ, rng)
    | .ok element =>
      match element.value with
      | .map kt ct entries =>
        match StorageMap.deleteOp kt entries mapKey with
        | .error err => (.error err, σ, rng)
        | .ok (removed, entries₁) =>
          (.ok (.bool removed), setValueInPlace σ key (.map kt ct entries₁), rng)
      | _ => (.error (.thrown (.typeError
          ("Element with key \x27" ++ key ++ "\x27 not a map."))), σ, rng)
  | .valueType key => (valueTypeResp σ now key, σ, rng)

/-- The statement loop of `process_statements`: run the statements in
order, retaining the latest response; stop early on `ShuttingDown` or on
any error.  The empty sequence keeps the initial `Ok(Null)`. -/
def runStatements (σ : HashMapStorage) (now : Nat) (rng : List Nat) :
    List Statement → Res Response × HashMapStorage × List Nat
  | [] => (.ok .null, σ, rng)
  | statement :: rest =>
    match processStatement σ now rng statement with
    | (.error err, σ₁, rng₁) => (.error err, σ₁, rng₁)
    | (.ok .shuttingDown, σ₁, rng₁) => (.ok .shuttingDown, σ₁, rng₁)
    | (.ok response, σ₁, rng₁) =>
      match rest with
      | [] => (.ok response, σ₁, rng₁)
      | _ :: _ => runStatements σ₁ now rng₁ rest

/-- `Interpreter::process_statements` (the body of `interpret`): the
authorization pre-pass, then the sequential execution loop. -/
def processStatements (statements : List Statement)
    (authorization : AuthorizationLevel) (σ : HashMapStorage) (now : Nat)
    (rng : List Nat) : Res Response × HashMapStorage × List Nat :=
  match validateAuthorization statements authorization with
  | .error err => (.error err, σ, rng)
  | .ok _ => runStatements σ now rng statements

/-! ### Supporting definitions and lemmas for the claim theorems -/

/-- The statements listed as mutators in the authorization matrix. -/
def isMutatorStmt (s : Statement) : Bool :=
  match s with
  | .delete .. | .set .. | .setIfNotExists .. | .vectorSet .. | .vectorAppend ..
  | .vectorPop .. | .mapSet .. | .mapDelete .. | .update ..
  | .updateLifetime .. => true
  | _ => false

/-- A statement whose minimum level exceeds the request's authorization
level, in the cases named by the claim: any mutator at `Read`, or
`Shutdown` at `Read` or `Write`. -/
def requiresHigherLevel (s : Statement) (a : AuthorizationLevel) : Prop :=
  (isMutatorStmt s = true ∧ a = .read) ∨ (s = .shutdown ∧ (a = .read ∨ a = .write))

/-- A statement above the request's level fails the per-statement
authorization test. -/
theorem requiresHigherLevel_not_authorized {s : Statement} {a : AuthorizationLevel}
    (h : requiresHigherLevel s a) : authCheckStmt s a = false := by
  rcases h with ⟨hm, ha⟩ | ⟨hs, ha⟩
  · subst ha
    cases s <;> simp [isMutatorStmt] at hm <;> rfl
  · subst hs
    rcases ha with ha | ha <;> subst ha <;> rfl

/-- If any statement in the list fails the per-statement test, the pre-pass
returns the `AuthorizationError`. -/
theorem validateAuthorization_err {l : List Statement} {a : AuthorizationLevel}
    (h : ∃ s ∈ l, authCheckStmt s a = false) :
    validateAuthorization l a =
      .error (.thrown (.authorizationError
        "User is not authorized to perform this query.")) := by
  induction l with
  | nil => simp at h
  | cons s rest ih =>
    rw [validateAuthorization]
    rcases h with ⟨w, hw, hcheck⟩
    rcases List.mem_cons.mp hw with rfl | hmem
    · rw [hcheck]
      simp
    · by_cases hc : authCheckStmt s a
      · rw [if_pos hc]
        exact ih ⟨w, hmem, hcheck⟩
      · rw [if_neg hc]

/-- ASCII lowercasing is idempotent. -/
theorem toLowerChar_idem (c : Char) : toLowerChar (toLowerChar c) = toLowerChar c := by
  unfold toLowerChar
  by_cases h : 65 ≤ c.toNat ∧ c.toNat ≤ 90
  · rw [if_pos h]
    have hval : (c.toNat + 32).isValidChar := by left; omega
    have htn : (Char.ofNat (c.toNat + 32)).toNat = c.toNat + 32 := char_toNat_ofNat hval
    rw [if_neg]
    rw [htn]
    omega
  · rw [if_neg h, if_neg h]

/-- The store holding the single entry `"a"` with expiration instant 0,
exactly as `set` builds it: the entry records index 0 into
`expiring_keys = ["a"]`. -/
def expiredEntryStore : HashMapStorage :=
  { storage := [("a", { element := { key := "a", expiration := some 0, value := .int 1 },
                        keyIndex := some 0 })],
    expiringKeys := ["a"] }

/-- The store reached by `set("a", exp 10); set("b", exp 1)` followed by an
expiration sweep at instant 2 that samples `"b"`: the entry `"b"` is gone
from the hash map but its slot survives in `expiring_keys`. -/
def staleIndexStore : HashMapStorage :=
  { storage := [("a", { element := { key := "a", expiration := some 10, value := .int 1 },
                        keyIndex := some 0 })],
    expiringKeys := ["a", "b"] }

/-- The scanning loop on the single-space suffix: the whitespace skip runs
off the end of the input and the unchecked `view` panics. -/
theorem tokenizeLoop_space_panic : tokenizeLoop [' '] 1 = .error .panic := by
  rw [tokenizeLoop.eq_def]
  rfl

/-! ### Claim theorems -/

/-- C1: the claimed invariant — after any sequence of storage operations,
`expiring_keys_count()` equals the number of resident entries with an
expiration, each pointing back at its slot — fails on the code: after
`set("a", expiration 0)` followed by one expiration sweep at instant 1
(sampling index 0), the entry is removed from the hash map but `"a"` stays
in `expiring_keys`, so the count is 1 while no resident entry carries an
expiration. -/
theorem c1_expiring_index_desync :
    ∃ σ, applyOps [.set "a" { key := "a", expiration := some 0, value := .int 1 },
          .invalidateExpiredKeys 1 0] HashMapStorage.new = .ok σ ∧
      expiringKeysCount σ = 1 ∧ residentExpiringCount σ = 0 :=
  ⟨{ storage := [], expiringKeys := ["a"] }, rfl, rfl, rfl⟩

/-- C2: `invalidate_expired_keys` on an expired sampled entry returns 1 and
removes the storage entry, but — contrary to the claim — does not remove
that key's slot in `expiring_keys`: from the one-entry store it returns
`Ok(1)` with `expiring_keys` still `["a"]`. -/
theorem c2_sweep_keeps_index_slot :
    setOp HashMapStorage.new "a" { key := "a", expiration := some 0, value := .int 1 } =
        .ok expiredEntryStore ∧
      invalidateExpiredKeys expiredEntryStore 1 0 =
        .ok (1, { storage := [], expiringKeys := ["a"] }) :=
  ⟨rfl, rfl⟩

/-- C3: `Parser::parse` is claimed never to perform an out-of-bounds token
access; on the token sequence of the query `get` (a command keyword
followed by no further tokens) `process_identifier_statement` advances past
the end of the token vector — an out-of-bounds index (panic), not a
`ParseError`. -/
theorem c3_parse_keyword_only_panics :
    parseTokens [{ token := .get, position := 0, lexeme := "get" }] = .error .panic := by
  unfold parseTokens
  rw [parseLoop.eq_def]
  rfl

/-- C4: `Tokenizer::tokenize` is claimed never to perform an out-of-bounds
character access; on the input `"a "` (trailing whitespace) the whitespace
skip runs off the end of the input, and on the input consisting of the
string literal `"a"` alone (input ending right after the closing quote) the
end-of-literal check calls `view` at the end of the input — both are
out-of-bounds indexes (panics), not `TokenizationError`s. -/
theorem c4_tokenizer_oob_panics :
    tokenizeStr "a " = .error .panic ∧ tokenizeStr "\"a\"" = .error .panic := by
  constructor
  · unfold tokenizeStr
    show tokenizeLoop ['a', ' '] 0 = .error .panic
    rw [tokenizeLoop.eq_def]
    show (match (tokenizeLoop [' '] 1 : Res (List AnnotatedToken)) with
      | Except.error err => (Except.error err : Res (List AnnotatedToken))
      | Except.ok ts =>
          Except.ok ({ token := Token.identifier "a", position := 0, lexeme := "a" } :: ts)) =
        Except.error Fail.panic
    rw [tokenizeLoop_space_panic]
  · unfold tokenizeStr
    rw [tokenizeLoop.eq_def]
    rfl

/-- C5 counterexample: the claim says `Float(x) == Float(y)` iff `x` and `y`
are bit-identical, in particular `Float(1.0) == Float(1.0)`; but the
`PartialEq` implementation sends every `Float` comparison to the catch-all
`false` arm, so equality fails even at identical payloads. -/
theorem c5_float_eq_counterexample :
    ¬ ((svEq (.float "1.0".data) (.float "1.0".data) = true) ↔
        ("1.0".data : F32) = "1.0".data) :=
  fun h => Bool.false_ne_true (h.mpr rfl)

/-- C5 (amended): equality of `StorageValue::Float` values is always
`false`, regardless of the payloads — in particular `Float(NaN)` is unequal
to `Float(NaN)`, and `Float(1.0)` is unequal to `Float(1.0)`. -/
theorem c5_float_eq_always_false (x y : F32) :
    svEq (.float x) (.float y) = false := rfl

/-- C6 counterexample: the claim says an entry whose expiration equals the
current instant counts as expired; `is_expired` uses the strict comparison
`now > expiration`, so at `expiration = now = 5` the entry is not
expired. -/
theorem c6_boundary_counterexample :
    ¬ ((StorageElement.isExpired { key := "k", expiration := some 5, value := .null } 5
          = true) ↔
        (∃ t, ({ key := "k", expiration := some 5, value := .null } :
            StorageElement).expiration = some t ∧ t ≤ 5)) :=
  fun h => Bool.false_ne_true (h.mpr ⟨5, rfl, Nat.le_refl 5⟩)

/-- C6 (amended): `is_expired` is true iff the expiration is present and
strictly before `now`; an entry whose expiration equals the current instant
is not expired. -/
theorem c6_is_expired_iff_strictly_past (e : StorageElement) (now : Nat) :
    e.isExpired now = true ↔ ∃ t, e.expiration = some t ∧ t < now := by
  cases e with
  | mk k exp v =>
    cases exp with
    | none => simp [StorageElement.isExpired]
    | some t => simp [StorageElement.isExpired]

/-- C7: parsing `set x int []` is claimed to succeed with an empty int
vector and no TTL; in the code the empty-vector early return leaves the
`]` unconsumed, the TTL parser then sees `]`, and the parse fails with
`ParseError "Expected an integer value for a lifetime."`. -/
theorem c7_empty_vector_literal_parse_error :
    parseTokens [{ token := .set, position := 0, lexeme := "set" },
        { token := .identifier "x", position := 4, lexeme := "x" },
        { token := .intType, position := 6, lexeme := "int" },
        { token := .leftBracket, position := 10, lexeme := "[" },
        { token := .rightBracket, position := 11, lexeme := "]" }] =
      .error (.thrown (.parseError "Expected an integer value for a lifetime.")) := by
  unfold parseTokens
  rw [parseLoop.eq_def]
  rfl

/-- C8: whenever some statement of the request exceeds the request's
authorization level (a mutator at `Read`, or `Shutdown` at `Read` or
`Write`), the interpreter returns the `AuthorizationError` and the storage
is returned unchanged — no statement, not even an earlier authorized one,
is executed. -/
theorem c8_authorization_prepass (statements : List Statement)
    (authorization : AuthorizationLevel) (σ : HashMapStorage) (now : Nat)
    (rng : List Nat)
    (h : ∃ s ∈ statements, requiresHigherLevel s authorization) :
    processStatements statements authorization σ now rng =
      (.error (.thrown (.authorizationError
        "User is not authorized to perform this query.")), σ, rng) := by
  have hv := validateAuthorization_err
    (l := statements) (a := authorization)
    (by rcases h with ⟨s, hs, hr⟩; exact ⟨s, hs, requiresHigherLevel_not_authorized hr⟩)
  unfold processStatements
  rw [hv]

/-- C8 witness: a `Set` after a `Get`, submitted at `Read`, is rejected with
the state unchanged. -/
theorem c8_authorization_prepass_witness :
    (∃ s ∈ [Statement.get "x", Statement.set "x" (.int 1) Option.none],
        requiresHigherLevel s .read) ∧
      processStatements [Statement.get "x", Statement.set "x" (.int 1) Option.none]
          .read HashMapStorage.new 0 [] =
        (.error (.thrown (.authorizationError
          "User is not authorized to perform this query.")), HashMapStorage.new, []) :=
  ⟨⟨Statement.set "x" (.int 1) Option.none, by simp, Or.inl ⟨rfl, rfl⟩⟩,
    c8_authorization_prepass _ _ _ _ _
      ⟨Statement.set "x" (.int 1) Option.none, by simp, Or.inl ⟨rfl, rfl⟩⟩⟩

/-- C9: the claim says `delete(k)` returns true iff `contains_key(k)` held
just before; in the reachable store built by `set("a", exp 10);
set("b", exp 1)` followed by a sweep at instant 2 sampling `"b"`,
`contains_key("a")` is true but `delete("a")` panics — the sweep left a
stale `expiring_keys` slot whose storage lookup `.unwrap()`s `None` — so it
never returns at all. -/
theorem c9_delete_panics_on_stale_index :
    applyOps [.set "a" { key := "a", expiration := some 10, value := .int 1 },
        .set "b" { key := "b", expiration := some 1, value := .int 2 },
        .invalidateExpiredKeys 2 1] HashMapStorage.new = .ok staleIndexStore ∧
      containsKey staleIndexStore 2 "a" = true ∧
      deleteOp staleIndexStore 2 "a" = .error .panic :=
  ⟨rfl, rfl, rfl⟩

/-- C10: tokenizing any input gives the same result as tokenizing its
lowercased form — `Tokenizer::new` lowercases the whole input (string
literal contents and identifiers included) before scanning, and
lowercasing is idempotent. -/
theorem c10_tokenize_lowercase_invariant (s : String) :
    tokenizeStr s = tokenizeStr (lowerString s) := by
  unfold tokenizeStr lowerString
  have hmap : (String.mk (s.data.map toLowerChar)).data.map toLowerChar =
      s.data.map toLowerChar := by
    show (s.data.map toLowerChar).map toLowerChar = s.data.map toLowerChar
    rw [List.map_map]
    exact List.map_congr_left (fun a _ => toLowerChar_idem a)
  rw [hmap]

end RustStore
